import Mathlib

/-! Trust-signal engine of `ultra_secure_flutter_kit` (Linux plugin)

A shallow embedding of `src/linux/ultra_secure_flutter_kit_linux.cpp`.

* A `std::string` is a list of bytes (`Bytes`); string literals of the source
  are written `lit "..."`.
* The two private fields of the plugin object are the `Plugin` structure; every
  member function that reads or writes them takes and returns it explicitly.
* The host the plugin observes (file system, host name, user, environment,
  clock) is the `Host` structure.
* A member function that can throw, or whose behaviour can be undefined,
  returns `Except Fault`.
* Output written to `std::cout` is not part of the model.
* `src/windows/ultra_secure_flutter_kit_windows.cpp` is commented out from its
  first line to its last, so it contributes no code to embed.
-/

namespace UltraSecureKit

/-! ## Strings -/

/-- A C++ `char`. -/
abbrev Byte := UInt8

/-- A `std::string`: a finite sequence of bytes. -/
abbrev Bytes := List Byte

/-- A string literal of the source, as the bytes of its (ASCII) characters. -/
def lit (s : String) : Bytes := s.toList.map (fun c => c.toNat.toUInt8)

/-- `s.find(needle)` of `std::string`: the least index at which `needle` occurs
in `s`, `none` standing for `std::string::npos`. -/
def find : Bytes → Bytes → Option Nat
  | [], needle => if needle.isPrefixOf [] then some 0 else none
  | c :: cs, needle =>
    if needle.isPrefixOf (c :: cs) then some 0 else (find cs needle).map (· + 1)

/-! ## Pinning validator -/

/-- The mutable members of `UltraSecureFlutterKitLinux`. -/
structure Plugin where
  pinned_certificates_ : List Bytes
  pinned_public_keys_ : List Bytes
deriving DecidableEq, Repr

/-- The plugin object as its constructor leaves it: both vectors empty. -/
def Plugin.init : Plugin := ⟨[], []⟩

/-- `ConfigureSSLPinning`: both members are assigned from the arguments. -/
def ConfigureSSLPinning (_p : Plugin) (certificates public_keys : List Bytes) : Plugin :=
  { pinned_certificates_ := certificates, pinned_public_keys_ := public_keys }

/-- `VerifySSLPinning`. -/
def VerifySSLPinning (p : Plugin) (url : Bytes) : Bool :=
  if p.pinned_certificates_.isEmpty && p.pinned_public_keys_.isEmpty then
    true
  else if find url (lit "https://") != some 0 then
    false
  else
    true

/-! ## Method-channel values

`flutter::EncodableValue` belongs to the Flutter embedder, not to this plugin.
It is a `std::variant`; the plugin only ever asks whether a value holds a map,
a list or a string, so the payloads of the other alternatives are kept as
plain numbers. -/

/-- The alternatives of `flutter::EncodableValue`, in the order of the variant. -/
inductive EncodableValue where
  | null
  | bool (b : Bool)
  | int32 (n : Int)
  | int64 (n : Int)
  | double (bits : Nat)
  | string (s : Bytes)
  | uint8List (l : List UInt8)
  | int32List (l : List Int)
  | int64List (l : List Int)
  | float64List (l : List Nat)
  | list (l : List EncodableValue)
  | map (m : List (EncodableValue × EncodableValue))
  | custom (tag : Nat)
  | float32List (l : List Nat)

/-- `flutter::EncodableList`. -/
abbrev EncodableList := List EncodableValue

/-- `flutter::EncodableMap`, as its key/value pairs in iteration order. -/
abbrev EncodableMap := List (EncodableValue × EncodableValue)

/-- `std::get_if<std::string>(&v)`. -/
def EncodableValue.get_if_string : EncodableValue → Option Bytes
  | .string s => some s
  | _ => none

/-- `std::get_if<flutter::EncodableList>(&v)`. -/
def EncodableValue.get_if_list : EncodableValue → Option EncodableList
  | .list l => some l
  | _ => none

/-- `std::get_if<flutter::EncodableMap>(v)`. -/
def EncodableValue.get_if_map : EncodableValue → Option EncodableMap
  | .map m => some m
  | _ => none

/-- `arguments->find(flutter::EncodableValue(key))` for a string key: the value
stored under the entry whose key holds the string `key`, `none` for `end()`. -/
def EncodableMap.find (m : EncodableMap) (key : Bytes) : Option EncodableValue :=
  match m with
  | [] => none
  | (k, v) :: rest =>
    match k.get_if_string with
    | some s => if s = key then some v else EncodableMap.find rest key
    | none => EncodableMap.find rest key

/-- What the handler does with its `flutter::MethodResult`. -/
inductive MethodResult where
  | Success (value : Option EncodableValue)
  | Error
  | NotImplemented

/-- The loop `for (const auto& cert : *cert_list)` of the `configureSSLPinning`
branch: every element that holds a string is pushed onto the back of the
vector, every other element is passed over. -/
def pushStrings (acc : List Bytes) : EncodableList → List Bytes
  | [] => acc
  | v :: rest =>
    match v.get_if_string with
    | some s => pushStrings (acc ++ [s]) rest
    | none => pushStrings acc rest

/-- The `configureSSLPinning` branch of `HandleMethodCall` (source lines
112-145): the new plugin state and the reply. `arguments` is `none` when
`method_call.arguments()` is a null pointer. -/
def HandleMethodCall_configureSSLPinning (p : Plugin) (arguments : Option EncodableValue) :
    Plugin × MethodResult :=
  match arguments.bind EncodableValue.get_if_map with
  | some args =>
    let certificates_it := EncodableMap.find args (lit "certificates")
    let public_keys_it := EncodableMap.find args (lit "publicKeys")
    let certificates : List Bytes :=
      match certificates_it.bind EncodableValue.get_if_list with
      | some cert_list => pushStrings [] cert_list
      | none => []
    let public_keys : List Bytes :=
      match public_keys_it.bind EncodableValue.get_if_list with
      | some key_list => pushStrings [] key_list
      | none => []
    (ConfigureSSLPinning p certificates public_keys, MethodResult.Success none)
  | none => (p, MethodResult.Success none)

/-! ## Calls that may not return

The source has no `try` block, so an exception ends the member function in
which it arises, and so does a call whose behaviour is undefined. -/

/-- The ways a call can end without returning a value. -/
inductive Fault where
  | out_of_range
  | invalid_argument
  | filesystem_error
  | undefined_behaviour
deriving DecidableEq, Repr

/-! ## File system

The plugin reaches the file system through `std::ofstream`, `std::ifstream`,
`std::remove`, `std::filesystem::exists` and
`std::filesystem::directory_iterator`. The state below records what is stored
under each path, whether the operating system lets the process create or
unlink it, and whether it lets the process query the path at all; the source
tests `is_open()` after every open, and both outcomes are modelled. The
source calls the overloads of `exists` and `is_directory` that throw. -/

/-- Access bits of a regular file, as they apply to the calling process. -/
structure Perm where
  readable : Bool
  writable : Bool
deriving DecidableEq, Repr

/-- What is stored under a path. -/
inductive Entry where
  | file (content : Bytes) (perm : Perm)
  | dir (names : List Bytes)
deriving DecidableEq, Repr

/-- A file-system state. -/
structure FileSystem where
  /-- The entry under each path, `none` when nothing is there. -/
  entry : Bytes → Option Entry
  /-- Whether a new file may be created under the path. -/
  mayCreate : Bytes → Bool
  /-- Whether the entry under the path may be unlinked. -/
  mayRemove : Bytes → Bool
  /-- The access bits a newly created file receives. -/
  createdPerm : Perm
  /-- Whether the status of the path cannot be determined: the query fails with
  an error other than "not found", as it does when a directory above the path
  cannot be searched (`EACCES`) or is a loop of symbolic links (`ELOOP`). The
  cause lies above the path, where no call of the program changes anything. -/
  statusFails : Bytes → Bool
  /-- Whether the directory under the path cannot be opened or read for
  listing. -/
  openDirFails : Bytes → Bool

/-- The state in which the entry under `p` is replaced by `e`. -/
def FileSystem.set (fs : FileSystem) (p : Bytes) (e : Option Entry) : FileSystem :=
  { fs with entry := fun q => if q = p then e else fs.entry q }

/-- Whether something is stored under `p`. -/
def FileSystem.holds (fs : FileSystem) (p : Bytes) : Bool :=
  (fs.entry p).isSome

/-- Whether a directory is stored under `p`. -/
def FileSystem.holdsDir (fs : FileSystem) (p : Bytes) : Bool :=
  match fs.entry p with
  | some (Entry.dir _) => true
  | _ => false

/-- `std::filesystem::exists(p)`: throws `filesystem_error` when the status of
`p` cannot be determined; an absent path is no error. -/
def fsExists (fs : FileSystem) (p : Bytes) : Except Fault Bool :=
  if fs.statusFails p then Except.error Fault.filesystem_error
  else Except.ok (fs.holds p)

/-- The loop `for (const auto& path : paths) if (std::filesystem::exists(path))
return true;`: whether it returned true. -/
def anyExists (fs : FileSystem) : List Bytes → Except Fault Bool
  | [] => pure false
  | path :: rest => do
    if (← fsExists fs path) then pure true else anyExists fs rest

/-- `std::ofstream file(p)`: the state after the open, and `file.is_open()`.
An existing writable file is truncated, an absent one is created when that is
permitted; a directory or a file without write access makes the open fail. -/
def ofstreamOpen (fs : FileSystem) (p : Bytes) : FileSystem × Bool :=
  match fs.entry p with
  | some (Entry.file _ perm) =>
    if perm.writable then (fs.set p (some (Entry.file [] perm)), true) else (fs, false)
  | some (Entry.dir _) => (fs, false)
  | none =>
    if fs.mayCreate p then (fs.set p (some (Entry.file [] fs.createdPerm)), true)
    else (fs, false)

/-- `file << data; file.close()` on an open output stream for `p`. -/
def ofstreamWrite (fs : FileSystem) (p data : Bytes) : FileSystem :=
  match fs.entry p with
  | some (Entry.file content perm) => fs.set p (some (Entry.file (content ++ data) perm))
  | _ => fs

/-- `std::remove(p)`: the state afterwards, and whether the call returned 0.
A file is unlinked when that is permitted, a directory only when it is also
empty; an absent path is an error that leaves the state as it is. -/
def stdRemove (fs : FileSystem) (p : Bytes) : FileSystem × Bool :=
  match fs.entry p with
  | some (Entry.file _ _) => if fs.mayRemove p then (fs.set p none, true) else (fs, false)
  | some (Entry.dir names) =>
    if names.isEmpty && fs.mayRemove p then (fs.set p none, true) else (fs, false)
  | none => (fs, false)

/-- `std::ifstream file(p)`: the bytes the stream will deliver, `none` when
`file.is_open()` is false. A directory opens but delivers nothing. -/
def ifstreamOpen (fs : FileSystem) (p : Bytes) : Option Bytes :=
  match fs.entry p with
  | some (Entry.file content perm) => if perm.readable then some content else none
  | some (Entry.dir _) => some []
  | none => none

/-- The line feed, delimiter of `std::getline`. -/
def newline : Byte := 10

/-- The string a first `std::getline(file, line)` stores in `line`: the bytes
before the first line feed, all of them when there is none. -/
def getlineFirst (content : Bytes) : Bytes :=
  content.takeWhile (· != newline)

/-- The strings that `while (std::getline(file, line))` assigns to `line`, in
order: the stream is cut at every line feed, and a last piece without a line
feed counts when it is not empty. -/
def getlines : Bytes → List Bytes
  | [] => []
  | c :: cs =>
    if c = newline then [] :: getlines cs
    else
      match getlines cs with
      | [] => [[c]]
      | l :: ls => (c :: l) :: ls

/-! ## Capture-protection sentinel -/

/-- The path of the marker file. -/
def markerPath : Bytes := lit "/tmp/screenshot_blocking_enabled"

/-- `EnableScreenCaptureProtection`. -/
def EnableScreenCaptureProtection (fs : FileSystem) : FileSystem :=
  match ofstreamOpen fs markerPath with
  | (fs1, true) => ofstreamWrite fs1 markerPath (lit "1")
  | (fs1, false) => fs1

/-- `DisableScreenCaptureProtection`: the result of `std::remove` is dropped. -/
def DisableScreenCaptureProtection (fs : FileSystem) : FileSystem :=
  (stdRemove fs markerPath).1

/-- `IsScreenCaptureBlocked`. -/
def IsScreenCaptureBlocked (fs : FileSystem) : Except Fault Bool :=
  fsExists fs markerPath

/-! ## Hash utility

The source calls OpenSSL's `SHA256_Init`, `SHA256_Update` and `SHA256_Final`
on one buffer; together they compute SHA-256 (FIPS 180-4) of that buffer.
Words are natural numbers below `2 ^ 32`. -/

/-- `SHA256_DIGEST_LENGTH`. -/
def SHA256_DIGEST_LENGTH : Nat := 32

/-- Addition of 32-bit words. -/
def add32 (x y : Nat) : Nat := (x + y) % 2 ^ 32

/-- Rotation of a 32-bit word to the right by `n` places. -/
def rotr32 (n x : Nat) : Nat := ((x >>> n) ||| (x <<< (32 - n))) % 2 ^ 32

/-- The first sixty-four prime numbers. -/
def firstPrimes : List Nat :=
  [2, 3, 5, 7, 11, 13, 17, 19, 23, 29, 31, 37, 41, 43, 47, 53,
   59, 61, 67, 71, 73, 79, 83, 89, 97, 101, 103, 107, 109, 113, 127, 131,
   137, 139, 149, 151, 157, 163, 167, 173, 179, 181, 191, 193, 197, 199, 211, 223,
   227, 229, 233, 239, 241, 251, 257, 263, 269, 271, 277, 281, 283, 293, 307, 311]

/-- The integer cube root of `n` refined over the `k` low bits: the greatest
`r + j` with `j < 2 ^ k` whose cube is at most `n`, for `r` a multiple of
`2 ^ k` whose cube is at most `n`. -/
def cubeRootBits : Nat → Nat → Nat → Nat
  | 0, _, r => r
  | k + 1, n, r => cubeRootBits k n (if (r + 2 ^ k) ^ 3 ≤ n then r + 2 ^ k else r)

/-- The round constants of SHA-256: the first 32 bits of the fractional parts
of the cube roots of the first sixty-four primes. -/
def sha256K : List Nat :=
  firstPrimes.map (fun p => cubeRootBits 36 (p * 2 ^ 96) 0 % 2 ^ 32)

/-- The first 32 bits of the fractional part of the square root of `p`. -/
def sqrtFraction (p : Nat) : Nat := Nat.sqrt (p * 2 ^ 64) % 2 ^ 32

/-- The eight working words of SHA-256. -/
structure Sha256State where
  a : Nat
  b : Nat
  c : Nat
  d : Nat
  e : Nat
  f : Nat
  g : Nat
  h : Nat
deriving DecidableEq, Repr

/-- The initial hash value of SHA-256, from the square roots of the first eight
primes. -/
def sha256Init : Sha256State :=
  ⟨sqrtFraction 2, sqrtFraction 3, sqrtFraction 5, sqrtFraction 7,
   sqrtFraction 11, sqrtFraction 13, sqrtFraction 17, sqrtFraction 19⟩

/-- One round of the compression function, for the constant `k` and the
schedule word `w`. -/
def sha256Round (s : Sha256State) (kw : Nat × Nat) : Sha256State :=
  let S1 := rotr32 6 s.e ^^^ rotr32 11 s.e ^^^ rotr32 25 s.e
  let ch := (s.e &&& s.f) ^^^ ((s.e ^^^ (2 ^ 32 - 1)) &&& s.g)
  let t1 := add32 (add32 (add32 (add32 s.h S1) ch) kw.1) kw.2
  let S0 := rotr32 2 s.a ^^^ rotr32 13 s.a ^^^ rotr32 22 s.a
  let maj := (s.a &&& s.b) ^^^ (s.a &&& s.c) ^^^ (s.b &&& s.c)
  let t2 := add32 S0 maj
  ⟨add32 t1 t2, s.a, s.b, s.c, add32 s.d t1, s.e, s.f, s.g⟩

/-- The big-endian 32-bit words of a block. -/
def sha256Words : Bytes → List Nat
  | b0 :: b1 :: b2 :: b3 :: rest =>
    (b0.toNat * 2 ^ 24 + b1.toNat * 2 ^ 16 + b2.toNat * 2 ^ 8 + b3.toNat) :: sha256Words rest
  | _ => []

/-- The message schedule grown by `n` further words. -/
def sha256Schedule : Nat → List Nat → List Nat
  | 0, w => w
  | n + 1, w =>
    let t := w.length
    let w15 := w.getD (t - 15) 0
    let w2 := w.getD (t - 2) 0
    let s0 := rotr32 7 w15 ^^^ rotr32 18 w15 ^^^ (w15 >>> 3)
    let s1 := rotr32 17 w2 ^^^ rotr32 19 w2 ^^^ (w2 >>> 10)
    sha256Schedule n (w ++ [add32 (add32 (add32 (w.getD (t - 16) 0) s0) (w.getD (t - 7) 0)) s1])

/-- The compression function: the hash value after one 64-byte block. -/
def sha256Compress (s : Sha256State) (block : Bytes) : Sha256State :=
  let w := sha256Schedule 48 (sha256Words block)
  let r := (sha256K.zip w).foldl sha256Round s
  ⟨add32 s.a r.a, add32 s.b r.b, add32 s.c r.c, add32 s.d r.d,
   add32 s.e r.e, add32 s.f r.f, add32 s.g r.g, add32 s.h r.h⟩

/-- The big-endian bytes of a number, `n` of them. -/
def bigEndian : Nat → Nat → Bytes
  | 0, _ => []
  | n + 1, x => (x / 256 ^ n).toUInt8 :: bigEndian n x

/-- The message with its padding: a `0x80` byte, zero bytes up to 56 modulo 64,
and the bit length on eight bytes. -/
def sha256Pad (msg : Bytes) : Bytes :=
  msg ++ [0x80] ++ List.replicate ((64 - (msg.length + 9) % 64) % 64) 0
    ++ bigEndian 8 (8 * msg.length)

/-- The hash value after the first `n` blocks of `data`. -/
def sha256Blocks : Nat → Sha256State → Bytes → Sha256State
  | 0, s, _ => s
  | n + 1, s, data => sha256Blocks n (sha256Compress s (data.take 64)) (data.drop 64)

/-- The digest `SHA256_Final` stores in `hash` after `SHA256_Init` and one
`SHA256_Update` with `data`. -/
def SHA256 (data : Bytes) : Bytes :=
  let padded := sha256Pad data
  let s := sha256Blocks (padded.length / 64) sha256Init padded
  bigEndian 4 s.a ++ bigEndian 4 s.b ++ bigEndian 4 s.c ++ bigEndian 4 s.d
    ++ bigEndian 4 s.e ++ bigEndian 4 s.f ++ bigEndian 4 s.g ++ bigEndian 4 s.h

/-- The table `"0123456789ABCDEF"` the source indexes. -/
def hexDigits : Bytes := lit "0123456789ABCDEF"

/-- The loop `for (int i = 0; i < SHA256_DIGEST_LENGTH; i++)` that appends
`"0123456789ABCDEF"[hash[i] / 16]` and `"0123456789ABCDEF"[hash[i] % 16]` to
`result`, which starts empty. -/
def hexEncode (hash : Bytes) : Bytes :=
  (List.range SHA256_DIGEST_LENGTH).foldl
    (fun result i =>
      (result ++ [hexDigits.getD ((hash.getD i 0).toNat / 16) 0])
        ++ [hexDigits.getD ((hash.getD i 0).toNat % 16) 0])
    []

/-! ## Fingerprint generator -/

/-- The host state the plugin observes. -/
structure Host where
  /-- The file system. -/
  fs : FileSystem
  /-- The buffer `gethostname` fills, `none` when the call does not return 0. -/
  hostname : Option Bytes
  /-- The value of `getuid()`. -/
  uid : Nat
  /-- The value of `std::getenv(name)`, `none` for a null pointer. -/
  env : Bytes → Option Bytes
  /-- The value of `time(nullptr)`, in seconds. -/
  clock : Nat

/-- The C string held in a buffer: the bytes before the first NUL. -/
def cString (buffer : Bytes) : Bytes :=
  buffer.takeWhile (· != 0)

/-- The first line, in stream order, for which `line.find("processor") == 0`. -/
def firstProcessorLine : List Bytes → Option Bytes
  | [] => none
  | line :: rest =>
    if find line (lit "processor") == some 0 then some line else firstProcessorLine rest

/-- The string `fingerprint` of `GetDeviceFingerprint` when it reaches the
comment `// Create hash` (source lines 407-437). -/
def fingerprintData (host : Host) : Bytes :=
  let fingerprint : Bytes := []
  let fingerprint :=
    match host.hostname with
    | some hostname => fingerprint ++ cString hostname
    | none => fingerprint
  let fingerprint := fingerprint ++ lit "|"
  let fingerprint :=
    match ifstreamOpen host.fs (lit "/etc/machine-id") with
    | some content => fingerprint ++ getlineFirst content
    | none => fingerprint
  let fingerprint := fingerprint ++ lit "|"
  let fingerprint :=
    match ifstreamOpen host.fs (lit "/proc/cpuinfo") with
    | some content =>
      match firstProcessorLine (getlines content) with
      | some line => fingerprint ++ (line ++ lit "|")
      | none => fingerprint
    | none => fingerprint
  fingerprint

/-- `GetDeviceFingerprint`. -/
def GetDeviceFingerprint (host : Host) : Bytes :=
  hexEncode (SHA256 (fingerprintData host))

/-- The separator byte `|`. -/
def separator : Byte := 124

/-- The host-name field: the C string `gethostname` delivered, empty when the
call failed. -/
def hostNameField (host : Host) : Bytes :=
  match host.hostname with
  | some hostname => cString hostname
  | none => []

/-- The machine-identifier field: the first line of `/etc/machine-id`, empty
when the file cannot be opened. -/
def machineIdField (host : Host) : Bytes :=
  match ifstreamOpen host.fs (lit "/etc/machine-id") with
  | some content => getlineFirst content
  | none => []

/-- The processor descriptor line: the first line of `/proc/cpuinfo` on which
`find("processor")` is 0, `none` when the file cannot be opened or has no such
line. -/
def processorLineField (host : Host) : Option Bytes :=
  (ifstreamOpen host.fs (lit "/proc/cpuinfo")).bind (fun content =>
    firstProcessorLine (getlines content))

/-- The string the specification describes for three field values: each field
followed by a separator. -/
def specFingerprintData (hostName machineId processorLine : Bytes) : Bytes :=
  hostName ++ lit "|" ++ machineId ++ lit "|" ++ processorLine ++ lit "|"

/-- The two hexadecimal digits of a byte, high nibble first. -/
def hexPair (b : Byte) : Bytes :=
  [hexDigits.getD (b.toNat / 16) 0, hexDigits.getD (b.toNat % 16) 0]

/-! ## String calls that may not return

`std::string::substr` and `std::stoi` throw, and `front()` and `back()` of an
empty `std::string` have undefined behaviour. -/

/-- `s.substr(pos)`: throws `std::out_of_range` when `pos > s.size()`. -/
def substr (s : Bytes) (pos : Nat) : Except Fault Bytes :=
  if pos > s.length then Except.error Fault.out_of_range else Except.ok (s.drop pos)

/-- `s.substr(pos, n)`. -/
def substrN (s : Bytes) (pos n : Nat) : Except Fault Bytes :=
  if pos > s.length then Except.error Fault.out_of_range else Except.ok ((s.drop pos).take n)

/-- `s.front()`: the string must not be empty. -/
def front (s : Bytes) : Except Fault Byte :=
  match s with
  | [] => Except.error Fault.undefined_behaviour
  | c :: _ => Except.ok c

/-- `s.back()`: the string must not be empty. -/
def back (s : Bytes) : Except Fault Byte :=
  match s.getLast? with
  | none => Except.error Fault.undefined_behaviour
  | some c => Except.ok c

/-- `isspace` in the C locale: space, and the controls from tab to carriage
return. -/
def isSpace (c : Byte) : Bool := c == 32 || (9 ≤ c && c ≤ 13)

/-- `isdigit`. -/
def isDigit (c : Byte) : Bool := 48 ≤ c && c ≤ 57

/-- The number a string of decimal digits denotes. -/
def decimalValue (digits : Bytes) : Int :=
  digits.foldl (fun acc d => acc * 10 + ((d.toNat : Int) - 48)) 0

/-- `std::stoi(str)`: white space is skipped, an optional sign and the longest
run of decimal digits are read and what follows is ignored. Without a digit
the call throws `std::invalid_argument`, with a value that is no `int` it
throws `std::out_of_range`. -/
def stoi (str : Bytes) : Except Fault Int :=
  let rest := str.dropWhile isSpace
  let negative := rest.head? == some 45
  let rest := if rest.head? == some 45 || rest.head? == some 43 then rest.drop 1 else rest
  let digits := rest.takeWhile isDigit
  if digits.isEmpty then Except.error Fault.invalid_argument
  else
    let value := if negative then - decimalValue digits else decimalValue digits
    if value < -(2 ^ 31) ∨ 2 ^ 31 - 1 < value then Except.error Fault.out_of_range
    else Except.ok value

/-- `entry.is_directory()` for the entry under path `p`: throws when the status
of `p` cannot be determined. -/
def is_directory (fs : FileSystem) (p : Bytes) : Except Fault Bool :=
  if fs.statusFails p then Except.error Fault.filesystem_error
  else Except.ok (fs.holdsDir p)

/-- `std::filesystem::directory_iterator(p)`: the paths of the entries of the
directory `p`; the iteration throws when `p` is not a directory and when
the directory cannot be opened or read. -/
def directory_iterator (fs : FileSystem) (p : Bytes) : Except Fault (List Bytes) :=
  match fs.entry p with
  | some (Entry.dir names) =>
    if fs.openDirFails p then Except.error Fault.filesystem_error
    else Except.ok (names.map (fun name => p ++ lit "/" ++ name))
  | _ => Except.error Fault.filesystem_error

/-! ## Platform version and app signature -/

/-- The double quote. -/
def quote : Byte := 34

/-- The body of `if (line.find("PRETTY_NAME=") == 0)` in `GetLinuxVersion`
(source lines 177-179): the value `version` holds at the `break`. -/
def prettyNameValue (line : Bytes) : Except Fault Bytes := do
  let version ← substr line 12
  let first ← front version
  let version ← if first = quote then substr version 1 else pure version
  let last ← back version
  let version ← if last = quote then substrN version 0 (version.length - 1) else pure version
  pure version

/-- The `while (std::getline(file, line))` loop of `GetLinuxVersion`, with
`version` still `"Unknown"` on entry. -/
def versionLoop : List Bytes → Except Fault Bytes
  | [] => pure (lit "Unknown")
  | line :: rest =>
    if find line (lit "PRETTY_NAME=") == some 0 then prettyNameValue line
    else versionLoop rest

/-- `GetLinuxVersion`. -/
def GetLinuxVersion (host : Host) : Except Fault Bytes :=
  match ifstreamOpen host.fs (lit "/etc/os-release") with
  | some content => versionLoop (getlines content)
  | none => pure (lit "Unknown")

/-- `GetAppSignature`. -/
def GetAppSignature (host : Host) : Except Fault Bytes := do
  let version ← GetLinuxVersion host
  let signature_data := version ++ GetDeviceFingerprint host
  pure (hexEncode (SHA256 signature_data))

/-! ## Environment probes -/

/-- The vector `vm_indicators` of `IsEmulator`. -/
def vm_indicators : List Bytes :=
  [lit "VMware", lit "VirtualBox", lit "QEMU", lit "Xen", lit "KVM"]

/-- `IsEmulator`. -/
def IsEmulator (host : Host) : Bool :=
  match ifstreamOpen host.fs (lit "/proc/cpuinfo") with
  | some content =>
    (getlines content).any (fun line =>
      vm_indicators.any (fun indicator => find line indicator != none))
  | none => false

/-- The `while (std::getline(file, line))` loop of `IsDebuggerAttached`; leaving
the loop, by `break` or at the end of the stream, leads to `return false`. -/
def tracerLoop : List Bytes → Except Fault Bool
  | [] => pure false
  | line :: rest =>
    if find line (lit "TracerPid:") == some 0 then do
      let pid_str ← substr line 11
      let tracer_pid ← stoi pid_str
      if tracer_pid != 0 then pure true else pure false
    else tracerLoop rest

/-- `IsDebuggerAttached`. -/
def IsDebuggerAttached (host : Host) : Except Fault Bool :=
  match ifstreamOpen host.fs (lit "/proc/self/status") with
  | some content => tracerLoop (getlines content)
  | none => pure false

/-- The vector `usb_paths` of `IsUsbCableAttached`. -/
def usb_paths : List Bytes :=
  [lit "/proc/bus/usb", lit "/sys/bus/usb", lit "/dev/bus/usb"]

/-- The string `usb_devices_path`. -/
def usb_devices_path : Bytes := lit "/sys/bus/usb/devices"

/-- The loop over the directory entries in `IsUsbCableAttached` (source lines
322-331): whether it returned true. -/
def anyCountedDevice (fs : FileSystem) : List Bytes → Except Fault Bool
  | [] => pure false
  | device_path :: rest => do
    if (← is_directory fs device_path) then
      if find device_path (lit "/usb") == none then pure true
      else anyCountedDevice fs rest
    else anyCountedDevice fs rest

/-- `IsUsbCableAttached`. -/
def IsUsbCableAttached (host : Host) : Except Fault Bool := do
  if (← anyExists host.fs usb_paths) then pure true
  else if (← fsExists host.fs usb_devices_path) then
    let entries ← directory_iterator host.fs usb_devices_path
    anyCountedDevice host.fs entries
  else pure false

/-- The map `GetUsbConnectionStatus` returns, one field for each key it sets. -/
structure UsbConnectionStatus where
  isAttached : Bool
  connectionType : Bytes
  isCharging : Bool
  isDataTransfer : Bool
  isUsbCharging : Bool
  isConnectedToComputer : Bool
  isConnectedViaUsb : Bool
  deviceCount : Nat
  powerSource : Bytes
  platform : Bytes
  timestamp : Nat
deriving DecidableEq, Repr

/-- The loop over the directory entries in `GetUsbConnectionStatus` (source
lines 357-364): the value of `deviceCount` after it. -/
def countDevices (fs : FileSystem) (deviceCount : Nat) : List Bytes → Except Fault Nat
  | [] => pure deviceCount
  | device_path :: rest => do
    if (← is_directory fs device_path) then
      if find device_path (lit "/usb") == none then countDevices fs (deviceCount + 1) rest
      else countDevices fs deviceCount rest
    else countDevices fs deviceCount rest

/-- The counting part of `GetUsbConnectionStatus` (source lines 354-365). -/
def countUsbDevices (fs : FileSystem) : Except Fault Nat := do
  if (← fsExists fs usb_devices_path) then
    let entries ← directory_iterator fs usb_devices_path
    countDevices fs 0 entries
  else pure 0

/-- `GetUsbConnectionStatus`. -/
def GetUsbConnectionStatus (host : Host) : Except Fault UsbConnectionStatus := do
  let isAttached ← IsUsbCableAttached host
  let connectionType := if isAttached then lit "data_transfer" else lit "none"
  let deviceCount ← countUsbDevices host.fs
  pure
    { isAttached := isAttached
      connectionType := connectionType
      isCharging := false
      isDataTransfer := isAttached
      isUsbCharging := false
      isConnectedToComputer := false
      isConnectedViaUsb := isAttached
      deviceCount := deviceCount
      powerSource := lit "unknown"
      platform := lit "linux"
      timestamp := host.clock * 1000 }

/-- The array `proxy_vars` of `HasProxySettings`. -/
def proxy_vars : List Bytes :=
  [lit "http_proxy", lit "https_proxy", lit "HTTP_PROXY", lit "HTTPS_PROXY"]

/-- `HasProxySettings`. -/
def HasProxySettings (host : Host) : Bool :=
  proxy_vars.any (fun var =>
    match host.env var with
    | some value => decide (0 < (cString value).length)
    | none => false)

/-- The first line, in stream order, on which `line.find(key) == 0`. -/
def firstLineWith (key : Bytes) : List Bytes → Option Bytes
  | [] => none
  | line :: rest => if find line key == some 0 then some line else firstLineWith key rest

/-- The directory entries of `/sys/bus/usb/devices` that are device directories
other than a bus controller: the directories whose name, as a path component,
does not hold `/usb`. -/
def nonControllerDevices (fs : FileSystem) : List Bytes :=
  match fs.entry usb_devices_path with
  | some (Entry.dir names) =>
    names.filter (fun name =>
      fs.holdsDir (usb_devices_path ++ lit "/" ++ name)
        && find (lit "/" ++ name) (lit "/usb") == none)
  | _ => []

/-! ## Integrity stub and readings used by the last theorems -/

/-- `VerifyAppIntegrity`: the result, and the host and plugin state the call
leaves. The body writes one line to `std::cout` and returns `true`. -/
def VerifyAppIntegrity (host : Host) (p : Plugin) : Bool × Host × Plugin :=
  (true, host, p)

/-- The environment in which every variable that is set to the empty string is
unset. -/
def unsetEmpty (env : Bytes → Option Bytes) : Bytes → Option Bytes :=
  fun name =>
    match env name with
    | some value => if cString value = [] then none else some value
    | none => none

/-- The specification's reading of a `PRETTY_NAME` value: one leading and one
trailing double quote removed when present. -/
def stripQuotes (value : Bytes) : Bytes :=
  let value := if value.head? = some quote then value.drop 1 else value
  if value.getLast? = some quote then value.dropLast else value

/-! ## Example states -/

/-- Access bits of an ordinary file of the user. -/
def Perm.rw : Perm := ⟨true, true⟩

/-- A file system with nothing in it and in which nothing may be created, as
when `/tmp` is missing or mounted read-only. -/
def fsNothingCreatable : FileSystem :=
  ⟨fun _ => none, fun _ => false, fun _ => false, Perm.rw, fun _ => false, fun _ => false⟩

/-- A file system that holds the marker file and does not let the process
unlink it, as when another user created it in a sticky `/tmp`. -/
def fsMarkerNotRemovable : FileSystem :=
  ⟨fun q => if q = markerPath then some (Entry.file (lit "1") ⟨true, false⟩) else none,
   fun _ => true, fun _ => false, Perm.rw, fun _ => false, fun _ => false⟩

/-- An empty file system in which files may be created and unlinked freely. -/
def fsEmpty : FileSystem :=
  ⟨fun _ => none, fun _ => true, fun _ => true, Perm.rw, fun _ => false, fun _ => false⟩

/-- A `configureSSLPinning` argument map whose two lists mix strings with
values of other kinds. -/
def mixedPinArguments : EncodableMap :=
  [(EncodableValue.string (lit "certificates"),
      EncodableValue.list [EncodableValue.string (lit "cert1"), EncodableValue.int32 7,
        EncodableValue.null, EncodableValue.string (lit "cert2")]),
   (EncodableValue.string (lit "publicKeys"),
      EncodableValue.list [EncodableValue.bool true, EncodableValue.string (lit "key1")])]

/-- A file system whose only entry is a readable file `path` with the given
content. -/
def fsSingleFile (path content : Bytes) : FileSystem :=
  ⟨fun q => if q = path then some (Entry.file content ⟨true, false⟩) else none,
   fun _ => false, fun _ => false, Perm.rw, fun _ => false, fun _ => false⟩

/-- A host named `pc` with a machine identifier and no readable
`/proc/cpuinfo`. -/
def hostWithoutCpuinfo : Host :=
  ⟨fsSingleFile (lit "/etc/machine-id") (lit "4f1c\n"), some (lit "pc"), 1000, fun _ => none, 0⟩

/-- A host named `pc` with a machine identifier and a `/proc/cpuinfo`. -/
def hostWithCpuinfo : Host :=
  ⟨⟨fun q =>
      if q = lit "/etc/machine-id" then some (Entry.file (lit "4f1c\n") ⟨true, false⟩)
      else if q = lit "/proc/cpuinfo" then
        some (Entry.file (lit "vendor_id\t: X\nprocessor\t: 0\nprocessor\t: 1\n") ⟨true, false⟩)
      else none,
     fun _ => false, fun _ => false, Perm.rw, fun _ => false, fun _ => false⟩,
   some (lit "pc"), 1000, fun _ => none, 0⟩

/-- A host named `a|b` without machine identifier and without `/proc/cpuinfo`. -/
def hostSeparatorInName : Host :=
  ⟨fsNothingCreatable, some (lit "a|b"), 1000, fun _ => none, 0⟩

/-- A host named `a` whose machine identifier is `b|`, without `/proc/cpuinfo`. -/
def hostSeparatorInMachineId : Host :=
  ⟨fsSingleFile (lit "/etc/machine-id") (lit "b|\n"), some (lit "a"), 1000, fun _ => none, 0⟩

/-- A host on which `gethostname` fails and nothing can be read. -/
def hostNameUnavailable : Host :=
  ⟨fsNothingCreatable, none, 1000, fun _ => none, 0⟩

/-- A host whose name is the empty string and on which nothing can be read. -/
def hostNameEmpty : Host :=
  ⟨fsNothingCreatable, some [], 1000, fun _ => none, 0⟩

/-- A file system that holds the listed entries and nothing else, in which
nothing may be created or unlinked. -/
def fsOfEntries (entries : List (Bytes × Entry)) : FileSystem :=
  ⟨fun q => (entries.find? (fun pe => pe.1 == q)).map (fun pe => pe.2),
   fun _ => false, fun _ => false, Perm.rw, fun _ => false, fun _ => false⟩

/-- A readable regular file. -/
def readableFile (content : Bytes) : Entry := Entry.file content ⟨true, false⟩

/-- The host `hostWithCpuinfo` seen again as root, with a proxy variable set, a
second line in the machine-identifier file and other lines around the
processor line of `/proc/cpuinfo`. -/
def hostWithCpuinfoVariant : Host :=
  ⟨fsOfEntries
      [(lit "/etc/machine-id", readableFile (lit "4f1c\nsecond line\n")),
       (lit "/proc/cpuinfo", readableFile (lit "model name\t: Y\nprocessor\t: 0\nflags\t: fpu\n")),
       (lit "/usr/bin/sudo", readableFile [])],
   some (lit "pc"), 0, fun name => if name = lit "http_proxy" then some (lit "p:3128") else none, 77⟩

/-- A host whose `/etc/os-release` names the system. -/
def hostWithPrettyName : Host :=
  ⟨fsOfEntries
      [(lit "/etc/os-release", readableFile (lit "NAME=\"Ubuntu\"\nPRETTY_NAME=\"Ubuntu 22.04\"\n"))],
   some (lit "pc"), 1000, fun _ => none, 0⟩

/-- A host whose `/etc/os-release` has a `PRETTY_NAME=` line with nothing
behind the equals sign. -/
def hostEmptyPrettyName : Host :=
  ⟨fsOfEntries [(lit "/etc/os-release", readableFile (lit "NAME=x\nPRETTY_NAME=\n"))],
   some (lit "pc"), 1000, fun _ => none, 0⟩

/-- A host whose `/proc/self/status` has the given content. -/
def hostWithStatus (content : Bytes) : Host :=
  ⟨fsOfEntries [(lit "/proc/self/status", readableFile content)],
   some (lit "pc"), 1000, fun _ => none, 0⟩

/-- A host with a USB bus on which the controller `usb1` and one device `1-1`
are enumerated. -/
def hostWithUsbDevice : Host :=
  ⟨fsOfEntries
      [(lit "/sys/bus/usb", Entry.dir [lit "devices", lit "drivers"]),
       (lit "/sys/bus/usb/devices", Entry.dir [lit "usb1", lit "1-1"]),
       (lit "/sys/bus/usb/devices/usb1", Entry.dir []),
       (lit "/sys/bus/usb/devices/1-1", Entry.dir [])],
   some (lit "pc"), 1000, fun _ => none, 1700000000⟩

/-- A host whose `/proc/cpuinfo` names a QEMU processor. -/
def hostOnQemu : Host :=
  ⟨fsOfEntries
      [(lit "/proc/cpuinfo",
        readableFile (lit "processor\t: 0\nmodel name\t: QEMU Virtual CPU version 2.5+\n"))],
   some (lit "vm"), 1000, fun _ => none, 0⟩

/-- A host whose `/etc/os-release` has a `PRETTY_NAME=` line with a lone double
quote behind the equals sign. -/
def hostLoneQuotePrettyName : Host :=
  ⟨fsOfEntries [(lit "/etc/os-release", readableFile (lit "NAME=x\nPRETTY_NAME=\"\n"))],
   some (lit "pc"), 1000, fun _ => none, 0⟩

/-- A host with `https_proxy` set, and `http_proxy` set to the empty string. -/
def hostWithProxy : Host :=
  ⟨fsNothingCreatable, some (lit "pc"), 1000,
   fun name =>
     if name = lit "http_proxy" then some []
     else if name = lit "https_proxy" then some (lit "http://proxy:3128")
     else none,
   0⟩

/-- A host on which the four proxy variables are set to the empty string. -/
def hostWithEmptyProxy : Host :=
  ⟨fsNothingCreatable, some (lit "pc"), 1000,
   fun name => if name ∈ proxy_vars then some [] else none, 0⟩

theorem find_eq_zero_iff (s needle : Bytes) : find s needle = some 0 ↔ needle <+: s := by
  cases s with
  | nil =>
    by_cases h : needle.isPrefixOf [] = true
    · simp only [find, h, if_true, true_iff]
      exact List.isPrefixOf_iff_prefix.mp h
    · simp only [find, h]
      constructor
      · intro h0; simp at h0
      · intro hp; exact absurd (List.isPrefixOf_iff_prefix.mpr hp) h
  | cons c cs =>
    by_cases h : needle.isPrefixOf (c :: cs) = true
    · simp only [find, h, if_true, true_iff]
      exact List.isPrefixOf_iff_prefix.mp h
    · simp only [find, h]
      constructor
      · intro h0
        cases hf : find cs needle with
        | none => simp [hf] at h0
        | some n => simp [hf] at h0
      · intro hp; exact absurd (List.isPrefixOf_iff_prefix.mpr hp) h

/-! ## Pinning validator: theorems -/

/-- With a pin set that is not empty, the answer of `VerifySSLPinning` is the
outcome of the scheme test alone. -/
theorem verify_of_nonempty (p : Plugin) (u : Bytes)
    (h : p.pinned_certificates_ ≠ [] ∨ p.pinned_public_keys_ ≠ []) :
    VerifySSLPinning p u = (find u (lit "https://") == some 0) := by
  have hne : (p.pinned_certificates_.isEmpty && p.pinned_public_keys_.isEmpty) = false := by
    rcases h with h | h
    · cases hc : p.pinned_certificates_ with
      | nil => exact absurd hc h
      | cons _ _ => rfl
    · cases hk : p.pinned_public_keys_ with
      | nil => exact absurd hk h
      | cons _ _ => simp
  by_cases hf : find u (lit "https://") = some 0
  · simp [VerifySSLPinning, hne, hf]
  · simp [VerifySSLPinning, hne, hf]

/-- C1: after `ConfigureSSLPinning([], [])`, on any prior pin state,
`VerifySSLPinning(u)` returns true for every URL `u`. -/
theorem verify_after_empty_configure (p : Plugin) (u : Bytes) :
    VerifySSLPinning (ConfigureSSLPinning p [] []) u = true := by
  simp [VerifySSLPinning, ConfigureSSLPinning]

/-- C2: after `ConfigureSSLPinning(c, k)` with `c` or `k` non-empty,
`VerifySSLPinning(u)` returns true exactly when `u` begins with `https://`. -/
theorem verify_configured_iff_https (p : Plugin) (c k : List Bytes) (u : Bytes)
    (h : c ≠ [] ∨ k ≠ []) :
    VerifySSLPinning (ConfigureSSLPinning p c k) u = true ↔ lit "https://" <+: u := by
  rw [verify_of_nonempty (ConfigureSSLPinning p c k) u h, ← find_eq_zero_iff]
  simp

/-- C2 at the spec's example: with `["cert1"]` pinned, `http://x` is refused and
`https://x` is accepted. -/
theorem verify_configured_iff_https_witness :
    ([lit "cert1"] ≠ [] ∨ ([] : List Bytes) ≠ []) ∧
    (VerifySSLPinning (ConfigureSSLPinning Plugin.init [lit "cert1"] []) (lit "https://x") = true
      ↔ lit "https://" <+: lit "https://x") ∧
    VerifySSLPinning (ConfigureSSLPinning Plugin.init [lit "cert1"] []) (lit "http://x") = false ∧
    VerifySSLPinning (ConfigureSSLPinning Plugin.init [lit "cert1"] []) (lit "https://x") = true :=
  ⟨Or.inl (by decide),
   verify_configured_iff_https Plugin.init [lit "cert1"] [] (lit "https://x") (Or.inl (by decide)),
   by decide, by decide⟩

/-- C3: `ConfigureSSLPinning` replaces the pin set wholesale. After
`configure(c1, k1)` then `configure(c2, k2)` the state holds exactly `c2` and
`k2`, it is the state `configure(c2, k2)` alone produces, and configuring a
second time with the same arguments changes nothing. -/
theorem configure_last_write_wins (s : Plugin) (c1 k1 c2 k2 : List Bytes) :
    (ConfigureSSLPinning (ConfigureSSLPinning s c1 k1) c2 k2).pinned_certificates_ = c2 ∧
    (ConfigureSSLPinning (ConfigureSSLPinning s c1 k1) c2 k2).pinned_public_keys_ = k2 ∧
    ConfigureSSLPinning (ConfigureSSLPinning s c1 k1) c2 k2 = ConfigureSSLPinning s c2 k2 ∧
    ConfigureSSLPinning (ConfigureSSLPinning s c2 k2) c2 k2 = ConfigureSSLPinning s c2 k2 :=
  ⟨rfl, rfl, rfl, rfl⟩

/-- C4: in the Configured state `VerifySSLPinning` does not consult the stored
pins: two pin states that are both non-empty give the same answer on every
URL. -/
theorem verify_ignores_pins (s1 s2 : Plugin) (u : Bytes)
    (h1 : s1.pinned_certificates_ ≠ [] ∨ s1.pinned_public_keys_ ≠ [])
    (h2 : s2.pinned_certificates_ ≠ [] ∨ s2.pinned_public_keys_ ≠ []) :
    VerifySSLPinning s1 u = VerifySSLPinning s2 u := by
  rw [verify_of_nonempty s1 u h1, verify_of_nonempty s2 u h2]

/-- C4 on a state that pins one certificate and a state that pins one public
key, for a plain-HTTP address. -/
theorem verify_ignores_pins_witness :
    VerifySSLPinning ⟨[lit "cert1"], []⟩ (lit "http://x")
      = VerifySSLPinning ⟨[], [lit "key1"]⟩ (lit "http://x") :=
  verify_ignores_pins ⟨[lit "cert1"], []⟩ ⟨[], [lit "key1"]⟩ (lit "http://x")
    (Or.inl (by decide)) (Or.inr (by decide))

/-! ## Method-channel handler: theorems -/

/-- The push loop appends to its accumulator the string entries of the list,
in their order. -/
theorem pushStrings_eq (l : EncodableList) (acc : List Bytes) :
    pushStrings acc l = acc ++ l.filterMap EncodableValue.get_if_string := by
  induction l generalizing acc with
  | nil => simp [pushStrings]
  | cons v rest ih =>
    cases hv : v.get_if_string with
    | none => simp [pushStrings, hv, ih, List.filterMap_cons]
    | some s => simp [pushStrings, hv, ih, List.filterMap_cons]

/-- C5: a `configureSSLPinning` request whose `certificates` and `publicKeys`
arguments are lists succeeds, and stores for each list the subsequence of its
string entries in their original order; entries of any other kind are skipped. -/
theorem configure_request_keeps_strings (p : Plugin) (args : EncodableMap)
    (certs keys : EncodableList)
    (hc : EncodableMap.find args (lit "certificates") = some (EncodableValue.list certs))
    (hk : EncodableMap.find args (lit "publicKeys") = some (EncodableValue.list keys)) :
    HandleMethodCall_configureSSLPinning p (some (EncodableValue.map args))
      = (⟨certs.filterMap EncodableValue.get_if_string,
          keys.filterMap EncodableValue.get_if_string⟩,
         MethodResult.Success none) := by
  simp [HandleMethodCall_configureSSLPinning, EncodableValue.get_if_map, hc, hk,
    EncodableValue.get_if_list, pushStrings_eq, ConfigureSSLPinning]

/-- C5 on a request whose lists mix strings with an integer, a null and a
boolean: `cert1`, `cert2` and `key1` are stored. -/
theorem configure_request_keeps_strings_witness :
    HandleMethodCall_configureSSLPinning Plugin.init (some (EncodableValue.map mixedPinArguments))
      = (⟨[lit "cert1", lit "cert2"], [lit "key1"]⟩, MethodResult.Success none) :=
  configure_request_keeps_strings Plugin.init mixedPinArguments
    [EncodableValue.string (lit "cert1"), EncodableValue.int32 7,
      EncodableValue.null, EncodableValue.string (lit "cert2")]
    [EncodableValue.bool true, EncodableValue.string (lit "key1")]
    rfl rfl

/-! ## Capture-protection sentinel: theorems -/

theorem FileSystem.set_entry_self (fs : FileSystem) (p : Bytes) (e : Option Entry) :
    (fs.set p e).entry p = e := by
  simp [FileSystem.set]

theorem FileSystem.set_set (fs : FileSystem) (p : Bytes) (e e1 : Option Entry) :
    (fs.set p e).set p e1 = fs.set p e1 := by
  simp only [FileSystem.set]
  congr 1
  funext q
  by_cases hq : q = p <;> simp [hq]

/-- What `EnableScreenCaptureProtection` does, by the entry found under the
marker path. -/
theorem enable_cases (fs : FileSystem) :
    EnableScreenCaptureProtection fs =
      match fs.entry markerPath with
      | some (Entry.file _ perm) =>
        if perm.writable then fs.set markerPath (some (Entry.file (lit "1") perm)) else fs
      | some (Entry.dir _) => fs
      | none =>
        if fs.mayCreate markerPath then
          fs.set markerPath (some (Entry.file (lit "1") fs.createdPerm))
        else fs := by
  unfold EnableScreenCaptureProtection ofstreamOpen
  cases h : fs.entry markerPath with
  | none =>
    by_cases hc : fs.mayCreate markerPath = true
    · simp [hc, ofstreamWrite, FileSystem.set_entry_self, FileSystem.set_set]
    · simp [hc]
  | some e =>
    cases e with
    | dir names => simp
    | file content perm =>
      by_cases hw : perm.writable = true
      · simp [hw, ofstreamWrite, FileSystem.set_entry_self, FileSystem.set_set]
      · simp [hw]

/-- What `DisableScreenCaptureProtection` does: the marker entry is gone when
`std::remove` succeeds, and nothing changes when it does not. -/
theorem disable_cases (fs : FileSystem) :
    DisableScreenCaptureProtection fs =
      if (stdRemove fs markerPath).2 = true then fs.set markerPath none else fs := by
  unfold DisableScreenCaptureProtection stdRemove
  cases h : fs.entry markerPath with
  | none => simp
  | some e =>
    cases e with
    | dir names =>
      by_cases hr : (names.isEmpty && fs.mayRemove markerPath) = true
      · simp only [hr, if_true]
      · simp only [hr]; simp
    | file content perm =>
      by_cases hr : fs.mayRemove markerPath = true
      · simp [hr]
      · simp [hr]

/-- `std::remove` does not succeed on a path that holds nothing. -/
theorem stdRemove_absent (fs : FileSystem) (p : Bytes) (h : fs.entry p = none) :
    (stdRemove fs p).2 = false := by
  simp [stdRemove, h]

/-- Enabling and disabling leave the answer to status queries as it was. -/
theorem toggle_statusFails (fs : FileSystem) :
    (EnableScreenCaptureProtection fs).statusFails = fs.statusFails ∧
    (DisableScreenCaptureProtection fs).statusFails = fs.statusFails := by
  constructor
  · rw [enable_cases]
    cases fs.entry markerPath with
    | none =>
      by_cases hc : fs.mayCreate markerPath = true
      · simp [hc, FileSystem.set]
      · simp [hc]
    | some e =>
      cases e with
      | dir names => rfl
      | file content perm =>
        by_cases hw : perm.writable = true
        · simp [hw, FileSystem.set]
        · simp [hw]
  · rw [disable_cases]
    by_cases hr : (stdRemove fs markerPath).2 = true
    · simp [hr, FileSystem.set]
    · simp [hr]

/-- After `EnableScreenCaptureProtection` the marker path holds an entry exactly
when it held one before or the file could be created. -/
theorem enable_holds (fs : FileSystem) :
    (EnableScreenCaptureProtection fs).holds markerPath = true ↔
      (fs.holds markerPath = true ∨ fs.mayCreate markerPath = true) := by
  rw [enable_cases]
  unfold FileSystem.holds
  cases h : fs.entry markerPath with
  | none =>
    by_cases hc : fs.mayCreate markerPath = true
    · simp [hc, FileSystem.set_entry_self]
    · simp [hc, h]
  | some e =>
    cases e with
    | dir names => simp [h]
    | file content perm =>
      by_cases hw : perm.writable = true
      · simp [hw, FileSystem.set_entry_self]
      · simp [hw, h]

/-- After `DisableScreenCaptureProtection` the marker path holds nothing exactly
when it held nothing before or `std::remove` succeeded. -/
theorem disable_holds (fs : FileSystem) :
    (DisableScreenCaptureProtection fs).holds markerPath = false ↔
      (fs.holds markerPath = false ∨ (stdRemove fs markerPath).2 = true) := by
  rw [disable_cases]
  unfold FileSystem.holds
  by_cases hr : (stdRemove fs markerPath).2 = true
  · simp [hr, FileSystem.set_entry_self]
  · simp [hr]

/-- The outcome of `std::filesystem::exists`, by cases. -/
theorem fsExists_cases (fs : FileSystem) (p : Bytes) :
    (fs.statusFails p = true ∧ fsExists fs p = Except.error Fault.filesystem_error) ∨
    (fs.statusFails p = false ∧ fsExists fs p = Except.ok (fs.holds p)) := by
  unfold fsExists
  cases fs.statusFails p <;> simp

/-- What a value returned by `exists` says of the state. -/
theorem holds_of_fsExists (fs : FileSystem) (p : Bytes) (b : Bool)
    (h : fsExists fs p = Except.ok b) : fs.statusFails p = false ∧ fs.holds p = b := by
  rcases fsExists_cases fs p with ⟨_, he⟩ | ⟨hs, he⟩
  · rw [he] at h; exact absurd h (by simp)
  · rw [he] at h; exact ⟨hs, Except.ok.inj h⟩

/-- C6, the claim fails: where nothing can be created under the marker path,
`EnableScreenCaptureProtection` leaves no marker and `IsScreenCaptureBlocked`
answers false; where the marker cannot be unlinked,
`DisableScreenCaptureProtection` leaves it and `IsScreenCaptureBlocked`
answers true. -/
theorem capture_toggle_can_miss :
    IsScreenCaptureBlocked (EnableScreenCaptureProtection fsNothingCreatable)
      = Except.ok false ∧
    IsScreenCaptureBlocked (DisableScreenCaptureProtection fsMarkerNotRemovable)
      = Except.ok true :=
  ⟨rfl, rfl⟩

/-- C6, amended: in the states where `std::filesystem::exists` returns for the
marker path, `EnableScreenCaptureProtection` followed by
`IsScreenCaptureBlocked` returns true exactly when the path existed or the
marker file may be created, and `DisableScreenCaptureProtection` followed by
`IsScreenCaptureBlocked` returns false exactly when the path did not exist or
`std::remove` succeeds on it; in the states where `exists` throws for the
marker path, `IsScreenCaptureBlocked` after `EnableScreenCaptureProtection`
throws as well. -/
theorem capture_blocked_after_toggle (fs : FileSystem) :
    (∀ b, fsExists fs markerPath = Except.ok b →
      IsScreenCaptureBlocked (EnableScreenCaptureProtection fs)
        = Except.ok (b || fs.mayCreate markerPath) ∧
      IsScreenCaptureBlocked (DisableScreenCaptureProtection fs)
        = Except.ok (b && !(stdRemove fs markerPath).2)) ∧
    (∀ fault, fsExists fs markerPath = Except.error fault →
      IsScreenCaptureBlocked (EnableScreenCaptureProtection fs) = Except.error fault) := by
  have hst := toggle_statusFails fs
  have hen := enable_holds fs
  have hdis := disable_holds fs
  unfold IsScreenCaptureBlocked
  constructor
  · intro b hb
    obtain ⟨hs, hh⟩ := holds_of_fsExists fs markerPath b hb
    have hE : fsExists (EnableScreenCaptureProtection fs) markerPath
        = Except.ok ((EnableScreenCaptureProtection fs).holds markerPath) := by
      unfold fsExists; rw [hst.1, hs]; rfl
    have hD : fsExists (DisableScreenCaptureProtection fs) markerPath
        = Except.ok ((DisableScreenCaptureProtection fs).holds markerPath) := by
      unfold fsExists; rw [hst.2, hs]; rfl
    subst hh
    rw [hE, hD]
    refine ⟨congrArg Except.ok ?_, congrArg Except.ok ?_⟩
    · rw [Bool.eq_iff_iff, hen]
      simp
    · cases hx : (DisableScreenCaptureProtection fs).holds markerPath <;>
        cases hf : fs.holds markerPath <;>
        cases hr : (stdRemove fs markerPath).2 <;>
        simp [hx, hf, hr] at hdis ⊢
  · intro fault hf
    rcases fsExists_cases fs markerPath with ⟨hfail, hex⟩ | ⟨_, hex⟩
    · rw [hex] at hf
      rw [← Except.error.inj hf]
      unfold fsExists
      rw [hst.1, hfail]
      rfl
    · rw [hex] at hf
      exact absurd hf (by simp)

/-- C6 amended, on an empty file system where files may be created: the marker
is reported after enabling and not after disabling. -/
theorem capture_blocked_after_toggle_witness :
    fsExists fsEmpty markerPath = Except.ok false ∧
    IsScreenCaptureBlocked (EnableScreenCaptureProtection fsEmpty) = Except.ok true ∧
    IsScreenCaptureBlocked (DisableScreenCaptureProtection fsEmpty) = Except.ok false :=
  ⟨rfl, (capture_blocked_after_toggle fsEmpty).1 false rfl⟩

/-- C7: the sentinel operations are idempotent. Applying
`EnableScreenCaptureProtection` twice leaves the state, and so the answer of
`IsScreenCaptureBlocked`, that one application leaves; the same holds of
`DisableScreenCaptureProtection`, which changes nothing when the marker is
already absent. -/
theorem capture_toggle_idempotent (fs : FileSystem) :
    EnableScreenCaptureProtection (EnableScreenCaptureProtection fs)
      = EnableScreenCaptureProtection fs ∧
    IsScreenCaptureBlocked (EnableScreenCaptureProtection (EnableScreenCaptureProtection fs))
      = IsScreenCaptureBlocked (EnableScreenCaptureProtection fs) ∧
    DisableScreenCaptureProtection (DisableScreenCaptureProtection fs)
      = DisableScreenCaptureProtection fs ∧
    IsScreenCaptureBlocked (DisableScreenCaptureProtection (DisableScreenCaptureProtection fs))
      = IsScreenCaptureBlocked (DisableScreenCaptureProtection fs) ∧
    (fs.holds markerPath = false → DisableScreenCaptureProtection fs = fs) := by
  have hen : EnableScreenCaptureProtection (EnableScreenCaptureProtection fs)
      = EnableScreenCaptureProtection fs := by
    rw [enable_cases fs]
    cases h : fs.entry markerPath with
    | none =>
      by_cases hc : fs.mayCreate markerPath = true
      · simp only [hc, if_true]
        rw [enable_cases]
        simp only [FileSystem.set_entry_self, FileSystem.set_set]
        by_cases hw : fs.createdPerm.writable = true
        · simp [hw]
        · simp [hw]
      · simp only [hc]
        rw [enable_cases]
        simp [h, hc]
    | some e =>
      cases e with
      | dir names =>
        simp only []
        rw [enable_cases]
        simp [h]
      | file content perm =>
        by_cases hw : perm.writable = true
        · simp only [hw, if_true]
          rw [enable_cases]
          simp [FileSystem.set_entry_self, FileSystem.set_set, hw]
        · simp only [hw]
          rw [enable_cases]
          simp [h, hw]
  have hdis : DisableScreenCaptureProtection (DisableScreenCaptureProtection fs)
      = DisableScreenCaptureProtection fs := by
    rw [disable_cases fs]
    by_cases hr : (stdRemove fs markerPath).2 = true
    · simp only [hr, if_true]
      rw [disable_cases]
      have := stdRemove_absent (fs.set markerPath none) markerPath
        (FileSystem.set_entry_self fs markerPath none)
      simp [this]
    · simp only [hr]
      rw [disable_cases]
      simp [hr]
  refine ⟨hen, by rw [hen], hdis, by rw [hdis], ?_⟩
  intro habs
  rw [disable_cases]
  have hnone : fs.entry markerPath = none := by
    simpa [FileSystem.holds] using habs
  simp [stdRemove_absent fs markerPath hnone]

/-- C7 on an empty file system: disabling with no marker present leaves the
state as it is, and enabling twice leaves the marker that enabling once
leaves. -/
theorem capture_toggle_idempotent_witness :
    fsEmpty.holds markerPath = false ∧
    fsExists fsEmpty markerPath = Except.ok false ∧
    DisableScreenCaptureProtection fsEmpty = fsEmpty ∧
    IsScreenCaptureBlocked (EnableScreenCaptureProtection (EnableScreenCaptureProtection fsEmpty))
      = IsScreenCaptureBlocked (EnableScreenCaptureProtection fsEmpty) ∧
    IsScreenCaptureBlocked (EnableScreenCaptureProtection fsEmpty) = Except.ok true :=
  ⟨by decide, rfl, (capture_toggle_idempotent fsEmpty).2.2.2.2 (by decide),
   (capture_toggle_idempotent fsEmpty).2.1, rfl⟩

/-! ## Hash utility: theorems -/

theorem SHA256_length (data : Bytes) : (SHA256 data).length = 32 := by
  simp [SHA256, bigEndian]

/-- Every entry of the digit table that a nibble selects is a digit of the
table. -/
theorem hexDigit_mem (k : Nat) (hk : k < 16) : hexDigits.getD k 0 ∈ hexDigits := by
  have hlen : hexDigits.length = 16 := by decide
  rw [List.getD_eq_getElem hexDigits 0 (by omega)]
  exact List.getElem_mem _

theorem hexPair_subset (b c : Byte) (hc : c ∈ hexPair b) : c ∈ hexDigits := by
  have hb : b.toNat < 256 := UInt8.toNat_lt b
  simp only [hexPair, List.mem_cons, List.mem_singleton, List.not_mem_nil, or_false] at hc
  rcases hc with hc | hc
  · rw [hc]; exact hexDigit_mem _ (by omega)
  · rw [hc]; exact hexDigit_mem _ (by omega)

/-- The encoding loop, stopped after `n` rounds, has produced the digit pairs
of the first `n` bytes. -/
theorem hexLoop_eq (hash : Bytes) (n : Nat) (hn : n ≤ hash.length) :
    (List.range n).foldl
      (fun result i =>
        (result ++ [hexDigits.getD ((hash.getD i 0).toNat / 16) 0])
          ++ [hexDigits.getD ((hash.getD i 0).toNat % 16) 0])
      [] = (hash.take n).flatMap hexPair := by
  induction n with
  | zero => simp
  | succ n ih =>
    have hlt : n < hash.length := by omega
    have htake : hash.take (n + 1) = hash.take n ++ [hash[n]] := by
      rw [List.take_succ, List.getElem?_eq_getElem hlt]
      rfl
    rw [List.range_succ, List.foldl_append, ih (by omega), htake, List.flatMap_append]
    simp [List.getElem?_eq_getElem hlt, hexPair]

/-- On a 32-byte digest the encoding loop yields the digit pairs of all its
bytes, in order. -/
theorem hexEncode_eq (hash : Bytes) (h : hash.length = 32) :
    hexEncode hash = hash.flatMap hexPair := by
  unfold hexEncode SHA256_DIGEST_LENGTH
  rw [hexLoop_eq hash 32 (by omega)]
  rw [List.take_of_length_le (by omega)]

theorem flatMap_hexPair_length (hash : Bytes) :
    (hash.flatMap hexPair).length = 2 * hash.length := by
  induction hash with
  | nil => simp
  | cons b bs ih =>
    simp only [List.flatMap_cons, List.length_append, ih, List.length_cons]
    simp [hexPair]
    omega

theorem hexDigit_inj (i j : Nat) (hi : i < 16) (hj : j < 16)
    (h : hexDigits.getD i 0 = hexDigits.getD j 0) : i = j := by
  have hlen : hexDigits.length = 16 := by decide
  have hnd : hexDigits.Nodup := by decide
  rw [List.getD_eq_getElem hexDigits 0 (by omega),
    List.getD_eq_getElem hexDigits 0 (by omega)] at h
  exact (List.Nodup.getElem_inj_iff hnd).mp h

theorem hexPair_injective (a b : Byte) (h : hexPair a = hexPair b) : a = b := by
  have ha : a.toNat < 256 := UInt8.toNat_lt a
  have hb : b.toNat < 256 := UInt8.toNat_lt b
  simp only [hexPair, List.cons.injEq, and_true] at h
  have hhi := hexDigit_inj _ _ (by omega) (by omega) h.1
  have hlo := hexDigit_inj _ _ (by omega) (by omega) h.2
  exact UInt8.ext (by omega)

/-- Two byte strings with the same digit pairs are the same string. -/
theorem flatMap_hexPair_injective (l1 l2 : Bytes)
    (h : l1.flatMap hexPair = l2.flatMap hexPair) : l1 = l2 := by
  induction l1 generalizing l2 with
  | nil =>
    cases l2 with
    | nil => rfl
    | cons b bs => simp [hexPair] at h
  | cons a as ih =>
    cases l2 with
    | nil => simp [hexPair] at h
    | cons b bs =>
      simp only [List.flatMap_cons, hexPair, List.cons_append, List.nil_append,
        List.cons.injEq] at h
      have hab : a = b := hexPair_injective a b (by unfold hexPair; rw [h.1, h.2.1])
      rw [hab, ih bs h.2.2]

/-! ## Fingerprint generator: theorems -/

/-- C8: on every host state `GetDeviceFingerprint` returns exactly 64
characters, each one of `0-9`, `A-F`: the two upper-case hexadecimal digits,
high nibble first, of each of the 32 bytes of the SHA-256 digest. -/
theorem fingerprint_is_hex64 (host : Host) :
    (GetDeviceFingerprint host).length = 64 ∧
    (∀ c ∈ GetDeviceFingerprint host, c ∈ lit "0123456789ABCDEF") ∧
    (SHA256 (fingerprintData host)).length = 32 ∧
    GetDeviceFingerprint host = (SHA256 (fingerprintData host)).flatMap hexPair := by
  have hlen := SHA256_length (fingerprintData host)
  have heq : GetDeviceFingerprint host = (SHA256 (fingerprintData host)).flatMap hexPair :=
    hexEncode_eq _ hlen
  refine ⟨?_, ?_, hlen, heq⟩
  · rw [heq, flatMap_hexPair_length, hlen]
  · intro c hc
    rw [heq, List.mem_flatMap] at hc
    obtain ⟨b, _, hcb⟩ := hc
    exact hexPair_subset b c hcb

theorem lit_separator : lit "|" = [separator] := by decide

/-- The digested string in closed form. -/
theorem fingerprintData_eq (host : Host) :
    fingerprintData host =
      hostNameField host ++ separator :: (machineIdField host ++ separator ::
        (match processorLineField host with
         | some line => line ++ [separator]
         | none => [])) := by
  unfold fingerprintData hostNameField machineIdField processorLineField
  rw [lit_separator]
  cases host.hostname <;> cases ifstreamOpen host.fs (lit "/etc/machine-id") <;>
    cases ifstreamOpen host.fs (lit "/proc/cpuinfo") with
    | none => simp
    | some content =>
      cases hline : firstProcessorLine (getlines content) <;> simp [hline]

/-- The line `firstProcessorLine` selects begins with `processor`, and no line
before it does. -/
theorem firstProcessorLine_some (lines : List Bytes) (line : Bytes) :
    firstProcessorLine lines = some line ↔
      ∃ before after, lines = before ++ line :: after ∧ lit "processor" <+: line ∧
        ∀ l ∈ before, ¬ lit "processor" <+: l := by
  induction lines with
  | nil => simp [firstProcessorLine]
  | cons l rest ih =>
    have hcons : firstProcessorLine (l :: rest) =
        if find l (lit "processor") == some 0 then some l else firstProcessorLine rest := rfl
    rw [hcons]
    by_cases hl : find l (lit "processor") = some 0
    · have hp := (find_eq_zero_iff l _).mp hl
      have hbeq : (find l (lit "processor") == some 0) = true := by simp [hl]
      rw [hbeq, if_pos rfl]
      constructor
      · intro h
        have hll : l = line := Option.some.inj h
        subst hll
        exact ⟨[], rest, rfl, hp, by simp⟩
      · rintro ⟨before, after, heq, _, hbefore⟩
        cases before with
        | nil =>
          have h1 : l = line := (List.cons.inj heq).1
          rw [h1]
        | cons b bs =>
          have h1 : l = b := (List.cons.inj heq).1
          exact absurd (h1 ▸ hp) (hbefore b (by simp))
    · have hp : ¬ lit "processor" <+: l := fun h => hl ((find_eq_zero_iff l _).mpr h)
      have hbeq : (find l (lit "processor") == some 0) = false := by simpa using hl
      rw [hbeq, if_neg (by simp), ih]
      constructor
      · rintro ⟨before, after, heq, hline, hbefore⟩
        refine ⟨l :: before, after, by simp [heq], hline, ?_⟩
        intro x hx
        rcases List.mem_cons.mp hx with hx | hx
        · rw [hx]; exact hp
        · exact hbefore x hx
      · rintro ⟨before, after, heq, hline, hbefore⟩
        cases before with
        | nil =>
          have h1 : l = line := (List.cons.inj heq).1
          exact absurd (h1 ▸ hline) hp
        | cons b bs =>
          have h2 : rest = bs ++ line :: after := (List.cons.inj heq).2
          exact ⟨bs, after, h2, hline, fun x hx => hbefore x (by simp [hx])⟩

/-- C9, the claim fails: on a host without a readable `/proc/cpuinfo` the
digested string is `pc|4f1c|`, one separator short of the string the claim
describes, `pc|4f1c||`. -/
theorem fingerprintData_no_trailing_separator :
    processorLineField hostWithoutCpuinfo = none ∧
    fingerprintData hostWithoutCpuinfo = lit "pc|4f1c|" ∧
    specFingerprintData (hostNameField hostWithoutCpuinfo) (machineIdField hostWithoutCpuinfo)
      ((processorLineField hostWithoutCpuinfo).getD []) = lit "pc|4f1c||" ∧
    fingerprintData hostWithoutCpuinfo ≠
      specFingerprintData (hostNameField hostWithoutCpuinfo)
        (machineIdField hostWithoutCpuinfo)
        ((processorLineField hostWithoutCpuinfo).getD []) := by
  refine ⟨by decide, by decide, by decide, by decide⟩

/-- C9, amended: on every host state the digested string is the host name,
`|`, the machine identifier, `|`, and then the processor line followed by `|`
when `/proc/cpuinfo` has a line that begins with `processor`, and nothing
more when it has none or cannot be read. Host name and machine identifier
are empty when their source is unavailable, and the processor line is the
first line of `/proc/cpuinfo` that begins with `processor`. -/
theorem fingerprintData_layout (host : Host) :
    fingerprintData host =
      hostNameField host ++ lit "|" ++ machineIdField host ++ lit "|" ++
        (match processorLineField host with
         | some line => line ++ lit "|"
         | none => []) ∧
    (host.hostname = none → hostNameField host = []) ∧
    (ifstreamOpen host.fs (lit "/etc/machine-id") = none → machineIdField host = []) ∧
    (∀ line, processorLineField host = some line ↔
      ∃ content before after, ifstreamOpen host.fs (lit "/proc/cpuinfo") = some content ∧
        getlines content = before ++ line :: after ∧ lit "processor" <+: line ∧
        ∀ l ∈ before, ¬ lit "processor" <+: l) := by
  refine ⟨?_, ?_, ?_, ?_⟩
  · rw [fingerprintData_eq, lit_separator]
    cases processorLineField host <;> simp
  · intro h; simp [hostNameField, h]
  · intro h; simp [machineIdField, h]
  · intro line
    unfold processorLineField
    cases hc : ifstreamOpen host.fs (lit "/proc/cpuinfo") with
    | none => simp
    | some content => simp [firstProcessorLine_some]

/-- C9 amended, on a host with a `/proc/cpuinfo` and on a host on which
nothing is available. -/
theorem fingerprintData_layout_witness :
    fingerprintData hostWithCpuinfo = lit "pc|4f1c|processor\t: 0|" ∧
    hostNameUnavailable.hostname = none ∧
    hostNameField hostNameUnavailable = [] ∧
    machineIdField hostNameUnavailable = [] ∧
    fingerprintData hostNameUnavailable = lit "||" :=
  ⟨by decide, rfl, (fingerprintData_layout hostNameUnavailable).2.1 rfl,
   (fingerprintData_layout hostNameUnavailable).2.2.1 rfl, by decide⟩

/-- A string is cut in one way only at its first separator: when neither
`a` nor `b` holds the byte `sep`, the equation `a ++ sep :: r = b ++ sep :: t`
forces `a = b` and `r = t`. -/
theorem cut_at_first (sep : Byte) (a b r t : Bytes) (ha : sep ∉ a) (hb : sep ∉ b)
    (h : a ++ sep :: r = b ++ sep :: t) : a = b ∧ r = t := by
  induction a generalizing b with
  | nil =>
    cases b with
    | nil => exact ⟨rfl, (List.cons.inj h).2⟩
    | cons y ys =>
      have hy : sep = y := (List.cons.inj h).1
      exact absurd (hy ▸ List.mem_cons_self y ys) hb
  | cons x xs ih =>
    cases b with
    | nil =>
      have hx : x = sep := (List.cons.inj h).1
      exact absurd (hx ▸ List.mem_cons_self x xs) ha
    | cons y ys =>
      have hxy : x = y := (List.cons.inj h).1
      have htl : xs ++ sep :: r = ys ++ sep :: t := (List.cons.inj h).2
      have hrec := ih ys (fun hm => ha (List.mem_cons_of_mem x hm))
        (fun hm => hb (List.mem_cons_of_mem y hm)) htl
      exact ⟨by rw [hxy, hrec.1], hrec.2⟩

/-- Where host names and machine identifiers hold no separator, the digested
string determines the three fields. -/
theorem fingerprintData_fields (h1 h2 : Host)
    (hn1 : separator ∉ hostNameField h1) (hm1 : separator ∉ machineIdField h1)
    (hn2 : separator ∉ hostNameField h2) (hm2 : separator ∉ machineIdField h2)
    (heq : fingerprintData h1 = fingerprintData h2) :
    hostNameField h1 = hostNameField h2 ∧ machineIdField h1 = machineIdField h2 ∧
      processorLineField h1 = processorLineField h2 := by
  rw [fingerprintData_eq, fingerprintData_eq] at heq
  obtain ⟨hname, hrest⟩ := cut_at_first separator _ _ _ _ hn1 hn2 heq
  obtain ⟨hmid, htail⟩ := cut_at_first separator _ _ _ _ hm1 hm2 hrest
  refine ⟨hname, hmid, ?_⟩
  cases hp1 : processorLineField h1 with
  | none =>
    cases hp2 : processorLineField h2 with
    | none => rfl
    | some l2 =>
      rw [hp1, hp2] at htail
      exact absurd htail.symm (by simp)
  | some l1 =>
    cases hp2 : processorLineField h2 with
    | none =>
      rw [hp1, hp2] at htail
      exact absurd htail (by simp)
    | some l2 =>
      rw [hp1, hp2] at htail
      have : l1 = l2 := List.append_cancel_right htail
      rw [this]

/-- Two fingerprints are equal exactly when the two digests are. -/
theorem fingerprint_eq_iff_digest_eq (h1 h2 : Host) :
    GetDeviceFingerprint h1 = GetDeviceFingerprint h2 ↔
      SHA256 (fingerprintData h1) = SHA256 (fingerprintData h2) := by
  unfold GetDeviceFingerprint
  rw [hexEncode_eq _ (SHA256_length _), hexEncode_eq _ (SHA256_length _)]
  exact ⟨flatMap_hexPair_injective _ _, fun h => by rw [h]⟩

/-- C10, the claim fails: the host named `a|b` with no machine identifier and
the host named `a` with machine identifier `b|` differ in both fields, and a
host whose name is unavailable differs from a host whose name is the empty
string, yet each pair has one digested string and one fingerprint. -/
theorem fingerprint_fields_can_collide :
    (hostNameField hostSeparatorInName ≠ hostNameField hostSeparatorInMachineId ∧
      machineIdField hostSeparatorInName ≠ machineIdField hostSeparatorInMachineId ∧
      fingerprintData hostSeparatorInName = fingerprintData hostSeparatorInMachineId ∧
      GetDeviceFingerprint hostSeparatorInName = GetDeviceFingerprint hostSeparatorInMachineId) ∧
    (hostNameUnavailable.hostname ≠ hostNameEmpty.hostname ∧
      fingerprintData hostNameUnavailable = fingerprintData hostNameEmpty ∧
      GetDeviceFingerprint hostNameUnavailable = GetDeviceFingerprint hostNameEmpty) := by
  have h1 : fingerprintData hostSeparatorInName = fingerprintData hostSeparatorInMachineId := by
    decide
  have h2 : fingerprintData hostNameUnavailable = fingerprintData hostNameEmpty := by
    decide
  exact ⟨⟨by decide, by decide, h1, congrArg (fun d => hexEncode (SHA256 d)) h1⟩,
    ⟨by decide, h2, congrArg (fun d => hexEncode (SHA256 d)) h2⟩⟩

/-- C10, amended: for two host states whose host names and machine
identifiers hold no `|`, a difference in the host name, in the machine
identifier or in the processor line (an unavailable host name or machine
identifier counting as the empty string) makes the strings that
`GetDeviceFingerprint` digests different; and the two fingerprints differ
exactly when the SHA-256 digests of these two strings differ. -/
theorem fingerprintData_differs (h1 h2 : Host)
    (hn1 : separator ∉ hostNameField h1) (hm1 : separator ∉ machineIdField h1)
    (hn2 : separator ∉ hostNameField h2) (hm2 : separator ∉ machineIdField h2)
    (hdiff : hostNameField h1 ≠ hostNameField h2 ∨ machineIdField h1 ≠ machineIdField h2 ∨
      processorLineField h1 ≠ processorLineField h2) :
    fingerprintData h1 ≠ fingerprintData h2 ∧
    (GetDeviceFingerprint h1 ≠ GetDeviceFingerprint h2 ↔
      SHA256 (fingerprintData h1) ≠ SHA256 (fingerprintData h2)) := by
  refine ⟨?_, not_congr (fingerprint_eq_iff_digest_eq h1 h2)⟩
  intro heq
  obtain ⟨hname, hmid, hproc⟩ := fingerprintData_fields h1 h2 hn1 hm1 hn2 hm2 heq
  rcases hdiff with hd | hd | hd
  · exact hd hname
  · exact hd hmid
  · exact hd hproc

/-- C10 amended, on two hosts of one name and one machine identifier of which
only one has a `/proc/cpuinfo`. -/
theorem fingerprintData_differs_witness :
    processorLineField hostWithCpuinfo ≠ processorLineField hostWithoutCpuinfo ∧
    fingerprintData hostWithCpuinfo ≠ fingerprintData hostWithoutCpuinfo :=
  ⟨by decide,
   (fingerprintData_differs hostWithCpuinfo hostWithoutCpuinfo
    (by decide) (by decide) (by decide) (by decide) (Or.inr (Or.inr (by decide)))).1⟩

/-! ## Further lemmas on strings and lines -/

/-- `s.find(needle)` is not `npos` exactly when `needle` occurs in `s`. -/
theorem find_ne_none_iff (s needle : Bytes) : find s needle ≠ none ↔ needle <:+: s := by
  induction s with
  | nil =>
    by_cases h : needle.isPrefixOf [] = true
    · have hp : needle <+: [] := List.isPrefixOf_iff_prefix.mp h
      simp only [find, h, if_true]
      exact ⟨fun _ => hp.isInfix, fun _ => by simp⟩
    · simp only [find, h]
      constructor
      · intro h0; exact absurd rfl h0
      · intro hi
        have hnil : needle = [] := List.infix_nil.mp hi
        exact absurd (by rw [hnil]; rfl) h
  | cons c cs ih =>
    rw [List.infix_cons_iff]
    by_cases h : needle.isPrefixOf (c :: cs) = true
    · have hp : needle <+: c :: cs := List.isPrefixOf_iff_prefix.mp h
      simp only [find, h, if_true]
      exact ⟨fun _ => Or.inl hp, fun _ => by simp⟩
    · have hnp : ¬ needle <+: c :: cs := fun hp => h (List.isPrefixOf_iff_prefix.mpr hp)
      simp only [find, h]
      constructor
      · intro h0
        right
        apply ih.mp
        intro hnone
        rw [hnone] at h0
        exact h0 rfl
      · intro hor
        rcases hor with hp | hi
        · exact absurd hp hnp
        · have := ih.mpr hi
          cases hf : find cs needle with
          | none => exact absurd hf this
          | some n => simp

/-- The line `firstLineWith key` selects begins with `key`, and no line before
it does. -/
theorem firstLineWith_some (key : Bytes) (lines : List Bytes) (line : Bytes) :
    firstLineWith key lines = some line ↔
      ∃ before after, lines = before ++ line :: after ∧ key <+: line ∧
        ∀ l ∈ before, ¬ key <+: l := by
  induction lines with
  | nil => simp [firstLineWith]
  | cons l rest ih =>
    have hcons : firstLineWith key (l :: rest) =
        if find l key == some 0 then some l else firstLineWith key rest := rfl
    rw [hcons]
    by_cases hl : find l key = some 0
    · have hp := (find_eq_zero_iff l _).mp hl
      have hbeq : (find l key == some 0) = true := by simp [hl]
      rw [hbeq, if_pos rfl]
      constructor
      · intro h
        have hll : l = line := Option.some.inj h
        subst hll
        exact ⟨[], rest, rfl, hp, by simp⟩
      · rintro ⟨before, after, heq, _, hbefore⟩
        cases before with
        | nil =>
          have h1 : l = line := (List.cons.inj heq).1
          rw [h1]
        | cons b bs =>
          have h1 : l = b := (List.cons.inj heq).1
          exact absurd (h1 ▸ hp) (hbefore b (by simp))
    · have hp : ¬ key <+: l := fun h => hl ((find_eq_zero_iff l _).mpr h)
      have hbeq : (find l key == some 0) = false := by simpa using hl
      rw [hbeq, if_neg (by simp), ih]
      constructor
      · rintro ⟨before, after, heq, hline, hbefore⟩
        refine ⟨l :: before, after, by simp [heq], hline, ?_⟩
        intro x hx
        rcases List.mem_cons.mp hx with hx | hx
        · rw [hx]; exact hp
        · exact hbefore x hx
      · rintro ⟨before, after, heq, hline, hbefore⟩
        cases before with
        | nil =>
          have h1 : l = line := (List.cons.inj heq).1
          exact absurd (h1 ▸ hline) hp
        | cons b bs =>
          have h2 : rest = bs ++ line :: after := (List.cons.inj heq).2
          exact ⟨bs, after, h2, hline, fun x hx => hbefore x (by simp [hx])⟩

/-- No line begins with `key` exactly when `firstLineWith key` selects none. -/
theorem firstLineWith_none (key : Bytes) (lines : List Bytes) :
    firstLineWith key lines = none ↔ ∀ l ∈ lines, ¬ key <+: l := by
  induction lines with
  | nil => simp [firstLineWith]
  | cons l rest ih =>
    have hcons : firstLineWith key (l :: rest) =
        if find l key == some 0 then some l else firstLineWith key rest := rfl
    rw [hcons]
    by_cases hl : find l key = some 0
    · have hp := (find_eq_zero_iff l _).mp hl
      have hbeq : (find l key == some 0) = true := by simp [hl]
      rw [hbeq, if_pos rfl]
      constructor
      · intro h; exact absurd h (by simp)
      · intro h; exact absurd hp (h l (by simp))
    · have hp : ¬ key <+: l := fun h => hl ((find_eq_zero_iff l _).mpr h)
      have hbeq : (find l key == some 0) = false := by simpa using hl
      rw [hbeq, if_neg (by simp), ih]
      constructor
      · intro h x hx
        rcases List.mem_cons.mp hx with hx | hx
        · rw [hx]; exact hp
        · exact h x hx
      · intro h x hx
        exact h x (List.mem_cons_of_mem l hx)

/-! ## Fingerprint and signature: further theorems -/

theorem hostNameField_eq (host : Host) :
    hostNameField host = (host.hostname.map cString).getD [] := by
  unfold hostNameField
  cases host.hostname <;> rfl

theorem machineIdField_eq (host : Host) :
    machineIdField host =
      ((ifstreamOpen host.fs (lit "/etc/machine-id")).map getlineFirst).getD [] := by
  unfold machineIdField
  cases ifstreamOpen host.fs (lit "/etc/machine-id") <;> rfl

/-- C11: `GetDeviceFingerprint` is a function of three host attributes. Two
host states that agree on the host name, on the first line of
`/etc/machine-id` and on the first line of `/proc/cpuinfo` that begins with
`processor`, each of them possibly absent, have the same fingerprint,
whatever else differs between them. -/
theorem fingerprint_determined_by_three_fields (h1 h2 : Host)
    (hname : h1.hostname.map cString = h2.hostname.map cString)
    (hmid : (ifstreamOpen h1.fs (lit "/etc/machine-id")).map getlineFirst
      = (ifstreamOpen h2.fs (lit "/etc/machine-id")).map getlineFirst)
    (hcpu : processorLineField h1 = processorLineField h2) :
    GetDeviceFingerprint h1 = GetDeviceFingerprint h2 := by
  have hdata : fingerprintData h1 = fingerprintData h2 := by
    rw [fingerprintData_eq, fingerprintData_eq, hostNameField_eq, hostNameField_eq,
      machineIdField_eq, machineIdField_eq, hname, hmid, hcpu]
  unfold GetDeviceFingerprint
  rw [hdata]

/-- C11 on two hosts that share name, machine identifier and processor line
and differ in user, environment, clock, other files and the other lines of
both files. -/
theorem fingerprint_determined_by_three_fields_witness :
    hostWithCpuinfo.uid ≠ hostWithCpuinfoVariant.uid ∧
    ifstreamOpen hostWithCpuinfo.fs (lit "/proc/cpuinfo")
      ≠ ifstreamOpen hostWithCpuinfoVariant.fs (lit "/proc/cpuinfo") ∧
    GetDeviceFingerprint hostWithCpuinfo = GetDeviceFingerprint hostWithCpuinfoVariant :=
  ⟨by decide, by decide,
   fingerprint_determined_by_three_fields hostWithCpuinfo hostWithCpuinfoVariant
    (by decide) (by decide) (by decide)⟩

/-- Where `GetLinuxVersion` returns a string, `GetAppSignature` returns the
64 upper-case hexadecimal digits of the SHA-256 digest of that string
followed, with nothing in between, by the device fingerprint. -/
theorem appSignature_of_version (host : Host) (version : Bytes)
    (hv : GetLinuxVersion host = Except.ok version) :
    GetAppSignature host
        = Except.ok (hexEncode (SHA256 (version ++ GetDeviceFingerprint host))) ∧
      (hexEncode (SHA256 (version ++ GetDeviceFingerprint host))).length = 64 ∧
      (∀ c ∈ hexEncode (SHA256 (version ++ GetDeviceFingerprint host)),
        c ∈ lit "0123456789ABCDEF") ∧
      hexEncode (SHA256 (version ++ GetDeviceFingerprint host))
        = (SHA256 (version ++ GetDeviceFingerprint host)).flatMap hexPair := by
  have heq := hexEncode_eq _ (SHA256_length (version ++ GetDeviceFingerprint host))
  refine ⟨?_, ?_, ?_, heq⟩
  · unfold GetAppSignature
    rw [hv]
    rfl
  · rw [heq, flatMap_hexPair_length, SHA256_length]
  · intro c hc
    rw [heq, List.mem_flatMap] at hc
    obtain ⟨b, _, hcb⟩ := hc
    exact hexPair_subset b c hcb

/-- A fault of `GetLinuxVersion` is the outcome of `GetAppSignature`. -/
theorem appSignature_of_fault (host : Host) (fault : Fault)
    (hv : GetLinuxVersion host = Except.error fault) :
    GetAppSignature host = Except.error fault := by
  unfold GetAppSignature
  rw [hv]
  rfl

/-- C12, the code at the failing input: with the line `PRETTY_NAME=` in
`/etc/os-release`, `GetLinuxVersion` calls `front()` on an empty string, which
is undefined, and so `GetAppSignature` yields no signature; on a host whose
line is `PRETTY_NAME="Ubuntu 22.04"` the version is `Ubuntu 22.04` and the
signature is the digest of that string followed by the fingerprint. -/
theorem appSignature_undefined_on_empty_pretty_name :
    prettyNameValue (lit "PRETTY_NAME=") = Except.error Fault.undefined_behaviour ∧
    GetLinuxVersion hostEmptyPrettyName = Except.error Fault.undefined_behaviour ∧
    GetAppSignature hostEmptyPrettyName = Except.error Fault.undefined_behaviour ∧
    GetLinuxVersion hostWithPrettyName = Except.ok (lit "Ubuntu 22.04") ∧
    GetAppSignature hostWithPrettyName
      = Except.ok (hexEncode (SHA256 (lit "Ubuntu 22.04" ++ GetDeviceFingerprint hostWithPrettyName))) :=
  ⟨rfl, rfl, appSignature_of_fault hostEmptyPrettyName _ rfl, rfl,
   (appSignature_of_version hostWithPrettyName (lit "Ubuntu 22.04") rfl).1⟩

/-! ## Environment probes: theorems -/

/-- C14, the code at the failing inputs: a `TracerPid:` line with nothing after
the colon makes `substr(11)` throw `std::out_of_range`, a value that is no
number makes `std::stoi` throw `std::invalid_argument`, and a value beyond
the range of `int` makes it throw `std::out_of_range`; in none of the three
cases does `IsDebuggerAttached` return a boolean. -/
theorem debugger_probe_throws :
    IsDebuggerAttached (hostWithStatus (lit "Name:\tapp\nTracerPid:\n"))
      = Except.error Fault.out_of_range ∧
    IsDebuggerAttached (hostWithStatus (lit "Name:\tapp\nTracerPid:\tabc\n"))
      = Except.error Fault.invalid_argument ∧
    IsDebuggerAttached (hostWithStatus (lit "Name:\tapp\nTracerPid:\t99999999999\n"))
      = Except.error Fault.out_of_range :=
  ⟨rfl, rfl, rfl⟩

/-- The strings `line.find(indicator) != std::string::npos` accepts. -/
theorem find_bne_none (line indicator : Bytes) :
    (find line indicator != none) = true ↔ indicator <:+: line := by
  rw [← find_ne_none_iff]
  simp

/-- C20: `IsEmulator` returns true exactly when `/proc/cpuinfo` can be read and
one of its lines contains one of `VMware`, `VirtualBox`, `QEMU`, `Xen`, `KVM`
as a substring, byte for byte; it returns false when the file cannot be
read. -/
theorem emulator_iff (host : Host) :
    (IsEmulator host = true ↔
      ∃ content, ifstreamOpen host.fs (lit "/proc/cpuinfo") = some content ∧
        ∃ line ∈ getlines content, ∃ indicator ∈ vm_indicators, indicator <:+: line) ∧
    (ifstreamOpen host.fs (lit "/proc/cpuinfo") = none → IsEmulator host = false) := by
  unfold IsEmulator
  constructor
  · cases hopen : ifstreamOpen host.fs (lit "/proc/cpuinfo") with
    | none => simp
    | some content =>
      simp only [List.any_eq_true, find_bne_none, Option.some.injEq, exists_eq_left']
  · intro hopen
    rw [hopen]

/-- C20 on a host whose `/proc/cpuinfo` names a QEMU processor, on a host whose
`/proc/cpuinfo` names none of the vendors, and on a host without the file. -/
theorem emulator_iff_witness :
    IsEmulator hostOnQemu = true ∧
    IsEmulator hostWithCpuinfo = false ∧
    ifstreamOpen hostNameUnavailable.fs (lit "/proc/cpuinfo") = none ∧
    IsEmulator hostNameUnavailable = false :=
  ⟨(emulator_iff hostOnQemu).1.mpr
      ⟨lit "processor\t: 0\nmodel name\t: QEMU Virtual CPU version 2.5+\n", rfl,
        lit "model name\t: QEMU Virtual CPU version 2.5+", by decide,
        lit "QEMU", by decide, ⟨lit "model name\t: ", lit " Virtual CPU version 2.5+", by decide⟩⟩,
   by decide, rfl, (emulator_iff hostNameUnavailable).2 rfl⟩

/-! ## USB probes: theorems -/

/-- The path of every entry of `/sys/bus/usb/devices` holds `/usb`, in the
name of the bus directory itself. -/
theorem find_usb_in_device_path (name : Bytes) :
    find (usb_devices_path ++ lit "/" ++ name) (lit "/usb") ≠ none := by
  rw [find_ne_none_iff]
  refine ⟨lit "/sys/bus", lit "/devices" ++ lit "/" ++ name, ?_⟩
  have hsplit : usb_devices_path = lit "/sys/bus" ++ lit "/usb" ++ lit "/devices" := by decide
  rw [hsplit]
  simp only [List.append_assoc]

/-- The test `device_path.find("/usb") == npos` fails on every entry of
`/sys/bus/usb/devices`. -/
theorem find_usb_beq (name : Bytes) :
    (find (usb_devices_path ++ lit "/" ++ name) (lit "/usb") == none) = false := by
  have h := find_usb_in_device_path name
  cases hf : find (usb_devices_path ++ lit "/" ++ name) (lit "/usb") with
  | none => exact absurd hf h
  | some n => rfl

/-- One round of the counting loop on an entry of `/sys/bus/usb/devices`: the
entry is never counted. -/
theorem countDevices_cons (fs : FileSystem) (n : Nat) (name : Bytes) (rest : List Bytes) :
    countDevices fs n ((usb_devices_path ++ lit "/" ++ name) :: rest) =
      match is_directory fs (usb_devices_path ++ lit "/" ++ name) with
      | Except.error fault => Except.error fault
      | Except.ok _ => countDevices fs n rest := by
  have hcons : countDevices fs n ((usb_devices_path ++ lit "/" ++ name) :: rest) =
      (do
        if (← is_directory fs (usb_devices_path ++ lit "/" ++ name)) then
          if find (usb_devices_path ++ lit "/" ++ name) (lit "/usb") == none then
            countDevices fs (n + 1) rest
          else countDevices fs n rest
        else countDevices fs n rest) := rfl
  rw [hcons, find_usb_beq]
  cases is_directory fs (usb_devices_path ++ lit "/" ++ name) with
  | error e => rfl
  | ok b => cases b <;> rfl

/-- The counting loop over the entries of `/sys/bus/usb/devices` leaves the
count as it was whenever it returns. -/
theorem countDevices_entries_ok (fs : FileSystem) (names : List Bytes) (n m : Nat)
    (h : countDevices fs n (names.map (fun name => usb_devices_path ++ lit "/" ++ name))
      = Except.ok m) : m = n := by
  induction names with
  | nil => exact (Except.ok.inj h).symm
  | cons x xs ih =>
    rw [List.map_cons, countDevices_cons] at h
    cases hd : is_directory fs (usb_devices_path ++ lit "/" ++ x) with
    | error e => rw [hd] at h; exact absurd h (by simp)
    | ok d => rw [hd] at h; exact ih h

/-- The outcome of the directory listing, by cases. -/
theorem directory_iterator_ok (fs : FileSystem) (p : Bytes) (entries : List Bytes)
    (h : directory_iterator fs p = Except.ok entries) :
    ∃ names, fs.entry p = some (Entry.dir names) ∧
      entries = names.map (fun name => p ++ lit "/" ++ name) := by
  unfold directory_iterator at h
  cases hent : fs.entry p with
  | none => rw [hent] at h; exact absurd h (by simp)
  | some e =>
    cases e with
    | file c perm => rw [hent] at h; exact absurd h (by simp)
    | dir names =>
      simp only [hent] at h
      by_cases hopen : fs.openDirFails p = true
      · rw [if_pos hopen] at h
        exact absurd h (by simp)
      · rw [if_neg hopen] at h
        exact ⟨names, rfl, (Except.ok.inj h).symm⟩

/-- The counting part of `GetUsbConnectionStatus`, step by step. -/
theorem countUsbDevices_eq (fs : FileSystem) :
    countUsbDevices fs =
      match fsExists fs usb_devices_path with
      | Except.error fault => Except.error fault
      | Except.ok false => Except.ok 0
      | Except.ok true =>
        match directory_iterator fs usb_devices_path with
        | Except.error fault => Except.error fault
        | Except.ok entries => countDevices fs 0 entries := by
  unfold countUsbDevices
  cases fsExists fs usb_devices_path with
  | error e => rfl
  | ok b =>
    cases b with
    | false => rfl
    | true =>
      cases directory_iterator fs usb_devices_path with
      | error e => rfl
      | ok entries => rfl

/-- The counting part returns 0 whenever it returns. -/
theorem countUsbDevices_zero (fs : FileSystem) (n : Nat)
    (h : countUsbDevices fs = Except.ok n) : n = 0 := by
  rw [countUsbDevices_eq] at h
  cases hex : fsExists fs usb_devices_path with
  | error e => rw [hex] at h; exact absurd h (by simp)
  | ok b =>
    cases b with
    | false => rw [hex] at h; exact (Except.ok.inj h).symm
    | true =>
      rw [hex] at h
      cases hit : directory_iterator fs usb_devices_path with
      | error e => rw [hit] at h; exact absurd h (by simp)
      | ok entries =>
        rw [hit] at h
        obtain ⟨names, _, hentries⟩ := directory_iterator_ok fs _ entries hit
        rw [hentries] at h
        exact countDevices_entries_ok fs names 0 n h

/-- The device count of every record `GetUsbConnectionStatus` returns is 0. -/
theorem usbStatus_deviceCount_zero (host : Host) (status : UsbConnectionStatus)
    (h : GetUsbConnectionStatus host = Except.ok status) : status.deviceCount = 0 := by
  unfold GetUsbConnectionStatus at h
  cases hatt : IsUsbCableAttached host with
  | error e => rw [hatt] at h; exact absurd h (by simp [bind, Except.bind])
  | ok b =>
    cases hcount : countUsbDevices host.fs with
    | error e => rw [hatt, hcount] at h; exact absurd h (by simp [bind, Except.bind])
    | ok n =>
      rw [hatt, hcount] at h
      simp only [bind, Except.bind, pure, Except.pure] at h
      have hs := Except.ok.inj h
      rw [← hs]
      exact countUsbDevices_zero host.fs n hcount

/-- C17, the code at the failing input: with the bus controller `usb1` and the
device `1-1` enumerated under `/sys/bus/usb/devices`, one device directory is
not a bus controller, and `GetUsbConnectionStatus` reports `deviceCount` 0,
because the path of every entry holds `/usb`. -/
theorem usb_device_count_stays_zero :
    nonControllerDevices hostWithUsbDevice.fs = [lit "1-1"] ∧
    find (lit "/sys/bus/usb/devices/1-1") (lit "/usb") = some 8 ∧
    (GetUsbConnectionStatus hostWithUsbDevice).map (fun status => status.deviceCount)
      = Except.ok 0 :=
  ⟨by decide, by decide, rfl⟩

/-- C21: `HasProxySettings` returns true exactly when one of `http_proxy`,
`https_proxy`, `HTTP_PROXY`, `HTTPS_PROXY` is set to a value that is not the
empty string; unsetting every variable that is set to the empty string does
not change the result. -/
theorem proxy_settings_iff (host : Host) :
    (HasProxySettings host = true ↔
      ∃ var ∈ [lit "http_proxy", lit "https_proxy", lit "HTTP_PROXY", lit "HTTPS_PROXY"],
        ∃ value, host.env var = some value ∧ cString value ≠ []) ∧
    HasProxySettings { host with env := unsetEmpty host.env } = HasProxySettings host := by
  constructor
  · unfold HasProxySettings
    rw [List.any_eq_true]
    constructor
    · rintro ⟨var, hvar, hval⟩
      refine ⟨var, hvar, ?_⟩
      cases henv : host.env var with
      | none => rw [henv] at hval; exact absurd hval (by simp)
      | some value =>
        rw [henv] at hval
        refine ⟨value, rfl, ?_⟩
        intro hempty
        simp [hempty] at hval
    · rintro ⟨var, hvar, value, henv, hne⟩
      refine ⟨var, hvar, ?_⟩
      rw [henv]
      have hpos : 0 < (cString value).length := List.length_pos.mpr hne
      simp [hpos]
  · unfold HasProxySettings
    congr 1
    funext var
    simp only [unsetEmpty]
    cases henv : host.env var with
    | none => rfl
    | some value =>
      by_cases hempty : cString value = []
      · simp [hempty]
      · simp [hempty]

/-- C21 on a host with `https_proxy` set and `http_proxy` empty, which is
reported, and on a host whose four proxy variables are all set to the empty
string, which is not. -/
theorem proxy_settings_iff_witness :
    HasProxySettings hostWithProxy = true ∧
    hostWithEmptyProxy.env (lit "http_proxy") = some [] ∧
    HasProxySettings hostWithEmptyProxy = false :=
  ⟨(proxy_settings_iff hostWithProxy).1.mpr
      ⟨lit "https_proxy", by decide, lit "http://proxy:3128", rfl, by decide⟩,
   rfl, by decide⟩

/-- C22: `VerifyAppIntegrity` returns true on every host state and every pin
state, and leaves both as they were. -/
theorem verifyAppIntegrity_stub (host : Host) (p : Plugin) :
    (VerifyAppIntegrity host p).1 = true ∧
    (VerifyAppIntegrity host p).2.1 = host ∧
    (VerifyAppIntegrity host p).2.2 = p :=
  ⟨rfl, rfl, rfl⟩

/-- What `GetLinuxVersion` makes of a `PRETTY_NAME=` line: with nothing or with
a lone double quote behind the equals sign it calls `front()` or `back()` on
an empty string; in every other case it returns the value with one leading
and one trailing double quote removed when present. -/
theorem prettyNameValue_eq (line : Bytes) (hlen : 12 ≤ line.length) :
    prettyNameValue line =
      if line.drop 12 = [] ∨ line.drop 12 = [quote] then
        Except.error Fault.undefined_behaviour
      else Except.ok (stripQuotes (line.drop 12)) := by
  have hsub : substr line 12 = Except.ok (line.drop 12) := by
    unfold substr
    rw [if_neg (by omega)]
  unfold prettyNameValue
  rw [hsub]
  generalize line.drop 12 = value
  cases value with
  | nil => simp [bind, Except.bind, front]
  | cons c cs =>
    by_cases hq : c = quote
    · subst hq
      cases cs with
      | nil => simp [bind, Except.bind, front, substr, back, pure, Except.pure]
      | cons d ds =>
        cases hlast : (d :: ds).getLast? with
        | none => exact absurd (List.getLast?_eq_none_iff.mp hlast) (by simp)
        | some last =>
          by_cases hl : last = quote
          · simp [bind, Except.bind, front, substr, back, pure, Except.pure, hlast, hl,
              substrN, stripQuotes, List.dropLast_eq_take]
          · simp [bind, Except.bind, front, substr, back, pure, Except.pure, hlast, hl,
              stripQuotes]
    · cases hlast : (c :: cs).getLast? with
      | none => exact absurd (List.getLast?_eq_none_iff.mp hlast) (by simp)
      | some last =>
        by_cases hl : last = quote
        · simp [bind, Except.bind, front, back, pure, Except.pure, hlast, hl, hq,
            substrN, stripQuotes, List.dropLast_eq_take]
        · simp [bind, Except.bind, front, back, pure, Except.pure, hlast, hl, hq,
            stripQuotes]

/-- The loop of `GetLinuxVersion` in terms of the first `PRETTY_NAME=` line. -/
theorem versionLoop_eq (lines : List Bytes) :
    versionLoop lines =
      match firstLineWith (lit "PRETTY_NAME=") lines with
      | none => Except.ok (lit "Unknown")
      | some line => prettyNameValue line := by
  induction lines with
  | nil => rfl
  | cons l rest ih =>
    have hloop : versionLoop (l :: rest) =
        if find l (lit "PRETTY_NAME=") == some 0 then prettyNameValue l
        else versionLoop rest := rfl
    have hfirst : firstLineWith (lit "PRETTY_NAME=") (l :: rest) =
        if find l (lit "PRETTY_NAME=") == some 0 then some l
        else firstLineWith (lit "PRETTY_NAME=") rest := rfl
    rw [hloop, hfirst]
    by_cases hl : (find l (lit "PRETTY_NAME=") == some 0) = true
    · rw [if_pos hl, if_pos hl]
    · rw [if_neg hl, if_neg hl, ih]

/-- `GetLinuxVersion` on every host: `Unknown` when `/etc/os-release` cannot be
opened or has no line beginning with `PRETTY_NAME=`; otherwise the outcome
`prettyNameValue_eq` describes for the first such line. -/
theorem linuxVersion_cases (host : Host) :
    (ifstreamOpen host.fs (lit "/etc/os-release") = none →
      GetLinuxVersion host = Except.ok (lit "Unknown")) ∧
    (∀ content, ifstreamOpen host.fs (lit "/etc/os-release") = some content →
      firstLineWith (lit "PRETTY_NAME=") (getlines content) = none →
      GetLinuxVersion host = Except.ok (lit "Unknown")) ∧
    (∀ content line, ifstreamOpen host.fs (lit "/etc/os-release") = some content →
      firstLineWith (lit "PRETTY_NAME=") (getlines content) = some line →
      GetLinuxVersion host =
        if line.drop 12 = [] ∨ line.drop 12 = [quote] then
          Except.error Fault.undefined_behaviour
        else Except.ok (stripQuotes (line.drop 12))) := by
  unfold GetLinuxVersion
  refine ⟨?_, ?_, ?_⟩
  · intro hopen
    rw [hopen]
    rfl
  · intro content hopen hfirst
    rw [hopen]
    show versionLoop (getlines content) = Except.ok (lit "Unknown")
    rw [versionLoop_eq, hfirst]
  · intro content line hopen hfirst
    rw [hopen]
    show versionLoop (getlines content) = _
    rw [versionLoop_eq, hfirst]
    obtain ⟨_, _, _, hprefix, _⟩ := (firstLineWith_some _ _ _).mp hfirst
    have hlen : 12 ≤ line.length := by
      have h12 : (lit "PRETTY_NAME=").length = 12 := by decide
      have := hprefix.length_le
      omega
    exact prettyNameValue_eq line hlen

/-- C23, the code at the failing inputs: for the line `PRETTY_NAME=` the
string `version` is empty when `version.front()` is evaluated, and for the
line `PRETTY_NAME="` it is empty when `version.back()` is evaluated, so on
both hosts `GetLinuxVersion` reads a character of an empty string instead of
returning the empty remainder. -/
theorem linuxVersion_reads_empty_string :
    (substr (lit "PRETTY_NAME=") 12 = Except.ok [] ∧
      front [] = Except.error Fault.undefined_behaviour ∧
      GetLinuxVersion hostEmptyPrettyName = Except.error Fault.undefined_behaviour) ∧
    (substr (lit "PRETTY_NAME=\"") 12 = Except.ok [quote] ∧
      front [quote] = Except.ok quote ∧ substr [quote] 1 = Except.ok [] ∧
      back [] = Except.error Fault.undefined_behaviour ∧
      GetLinuxVersion hostLoneQuotePrettyName = Except.error Fault.undefined_behaviour) ∧
    stripQuotes [] = [] ∧ stripQuotes [quote] = [] :=
  ⟨⟨rfl, rfl, rfl⟩, ⟨rfl, rfl, rfl, rfl, rfl⟩, rfl, rfl⟩

end UltraSecureKit
